import Mathlib

/-!
# Verification of the document field-extraction engine

Shallow embedding of `src/era/pdf_extractor.py` (the field-extraction
engine) and `_detect_document_type` from `src/web/routes/era_dashboard.py`,
together with proofs about the specified behaviour.

Modelling conventions:
* Python strings are Lean `String`s; character classes (`\d`, `\w`, `\s`)
  and case folding are modelled over ASCII (the engine's keyword tables and
  all inputs appearing in the claims are ASCII).
* Python `None` is `Option.none`; a function that may return `None` or a
  string returns `Option String`.
* Python floats are modelled as `ℚ`; every confidence constant in the
  source is an exact decimal, so no precision is lost.
* `pdfplumber` I/O is out of scope: an extractor receives the reader's
  outcome, either `Except.error msg` (an exception whose message is `msg`
  was raised while reading) or `Except.ok doc` with the materialized pages.
-/

set_option maxHeartbeats 1000000

namespace Era

/-- Whitespace as matched by Python's `str.strip` / regex `\s` (ASCII part). -/
def isPySpace (c : Char) : Bool :=
  c = ' ' || c = '\t' || c = '\n' || c = '\r' || c = '\x0b' || c = '\x0c'

/-- ASCII decimal digit, modelling regex `\d` and `str.isdigit`. -/
def isPyDigit (c : Char) : Bool :=
  '0' ≤ c && c ≤ '9'

/-- ASCII word character, modelling regex `\w`. -/
def isPyWord (c : Char) : Bool :=
  isPyDigit c || ('a' ≤ c && c ≤ 'z') || ('A' ≤ c && c ≤ 'Z') || c = '_'

/-- ASCII lower-casing of one character, modelling `str.lower`. -/
def pyLowerChar (c : Char) : Char :=
  if 'A' ≤ c && c ≤ 'Z' then Char.ofNat (c.toNat + 32) else c

/-- ASCII upper-casing of one character. -/
def pyUpperChar (c : Char) : Char :=
  if 'a' ≤ c && c ≤ 'z' then Char.ofNat (c.toNat - 32) else c

/-- `str.lower` on a whole string. -/
def pyLower (s : String) : String :=
  ⟨s.toList.map pyLowerChar⟩

/-- `str.strip()` on a character list: drop leading and trailing whitespace. -/
def pyStripList (l : List Char) : List Char :=
  ((l.dropWhile isPySpace).reverse.dropWhile isPySpace).reverse

/-- `str.strip()`. -/
def pyStrip (s : String) : String :=
  ⟨pyStripList s.toList⟩

/-- `str.rstrip(".")`: drop trailing `'.'` characters. -/
def pyRstripDot (s : String) : String :=
  ⟨((s.toList.reverse.dropWhile (fun c => c = '.'))).reverse⟩

/-- `str.isdigit()` (ASCII model): non-empty and all digits. -/
def pyIsDigitStr (s : String) : Bool :=
  !s.toList.isEmpty && s.toList.all isPyDigit

/-- Does `pat` occur as a leading block of `hay`? (helper for substring search) -/
def listStartsWith : List Char → List Char → Bool
  | [], _ => true
  | _ :: _, [] => false
  | p :: ps, h :: hs => p = h && listStartsWith ps hs

/-- Does `pat` occur anywhere inside `hay`?  Models Python's `pat in hay`. -/
def listHasSub (pat : List Char) : List Char → Bool
  | [] => listStartsWith pat []
  | h :: hs => listStartsWith pat (h :: hs) || listHasSub pat hs

/-- Python `pat in hay` on strings. -/
def strHasSub (hay pat : String) : Bool :=
  listHasSub pat.toList hay.toList

/-- Index of the first occurrence of `pat` in `hay`
(Python `hay.find(pat)`, with `none` for `-1`). -/
def listFindSub (pat : List Char) : List Char → Option Nat
  | [] => if listStartsWith pat [] then some 0 else none
  | h :: hs =>
    if listStartsWith pat (h :: hs) then some 0
    else (listFindSub pat hs).map (· + 1)

/-- Fuelled worker for `listCountSub`; every step consumes at least one
character, so fuel `hay.length + 1` is always enough. -/
def listCountSubF (pat : List Char) : Nat → List Char → Nat
  | 0, _ => 0
  | _ + 1, [] => 0
  | f + 1, h :: hs =>
    if listStartsWith pat (h :: hs) then
      1 + listCountSubF pat f (hs.drop (pat.length - 1))
    else
      listCountSubF pat f hs

/-- Number of non-overlapping occurrences of `pat` in `hay`, scanning from
the left (Python `hay.count(pat)` for non-empty `pat`). -/
def listCountSub (pat hay : List Char) : Nat :=
  listCountSubF pat (hay.length + 1) hay

/-- Split at newline characters (Python `text.split("\n")`): always at
least one piece, empty pieces kept. -/
def splitLinesList : List Char → List (List Char)
  | [] => [[]]
  | c :: r =>
    match splitLinesList r with
    | l :: ls => if c = '\n' then [] :: l :: ls else (c :: l) :: ls
    | [] => [[]]

/-- Python `text.split("\n")` on strings. -/
def pySplitLines (s : String) : List String :=
  (splitLinesList s.toList).map fun l => ⟨l⟩

/-- The first `n` characters of a string (Python `s[:n]`). -/
def pyTake (s : String) (n : Nat) : String :=
  ⟨s.toList.take n⟩

/-- First `some` produced by `f` over a list, mirroring a Python
`for`-loop that `return`s on its first hit. -/
def firstSome (f : α → Option β) : List α → Option β
  | [] => none
  | x :: xs => match f x with
    | some b => some b
    | none => firstSome f xs

/-!
## `_normalize_amount` (pdf_extractor.py lines 919–940)

```python
def _normalize_amount(raw: str) -> str:
    if not raw:
        return None
    cleaned = re.sub(r"(?<=\d)\s+(?=\d)", "", raw.strip())
    if re.match(r"^\d{1,3}(\.\d{3})+,\d{2}$", cleaned):
        cleaned = cleaned.replace(".", "").replace(",", ".")
    elif re.match(r"^\d{1,3}(,\d{3})+\.\d{2}$", cleaned):
        cleaned = cleaned.replace(",", "")
    elif "," in cleaned and "." not in cleaned:
        cleaned = cleaned.replace(",", ".")
    cleaned = re.sub(r"[^\d.]", "", cleaned)
    try:
        float(cleaned)
        return cleaned
    except (ValueError, TypeError):
        return raw.strip()
```
-/

/-- Fuelled worker for `rmDigitSpaces`; every step consumes at least the
head character, so fuel `l.length + 1` is always enough. -/
def rmDigitSpacesF : Nat → List Char → List Char
  | 0, l => l
  | _ + 1, [] => []
  | f + 1, c :: rest =>
    if isPyDigit c then
      -- `rest.dropWhile isPySpace` is the input after the maximal whitespace
      -- run `\s+`; the run is non-empty iff dropping shortened the list.
      if (rest.dropWhile isPySpace).length < rest.length &&
          ((rest.dropWhile isPySpace).head?.elim false isPyDigit) then
        c :: rmDigitSpacesF f (rest.dropWhile isPySpace)
      else
        c :: rmDigitSpacesF f rest
    else
      c :: rmDigitSpacesF f rest

/-- `re.sub(r"(?<=\d)\s+(?=\d)", "", ·)`: delete every whitespace run that
sits strictly between two digits. -/
def rmDigitSpaces (l : List Char) : List Char :=
  rmDigitSpacesF (l.length + 1) l

/-- Tail of the regex `^\d{1,3}(\.\d{3})+,\d{2}$` after the leading digit
run: one or more `.ddd` groups followed by `,dd` at the end.  (The regex is
equivalent to: maximal leading digit run of length 1–3, then this tail,
because any shorter take of `\d{1,3}` would leave a digit where `\.` is
required.) -/
def euroTail : List Char → Bool
  | '.' :: a :: b :: c :: rest =>
    isPyDigit a && isPyDigit b && isPyDigit c &&
      ((match rest with
        | [',', d, e] => isPyDigit d && isPyDigit e
        | _ => false) || euroTail rest)
  | _ => false

/-- Full match of `^\d{1,3}(\.\d{3})+,\d{2}$` (European long form). -/
def euroFormat (l : List Char) : Bool :=
  let ds := l.takeWhile isPyDigit
  decide (1 ≤ ds.length) && decide (ds.length ≤ 3) && euroTail (l.drop ds.length)

/-- Tail of `^\d{1,3}(,\d{3})+\.\d{2}$` (US form), analogous to `euroTail`. -/
def usTail : List Char → Bool
  | ',' :: a :: b :: c :: rest =>
    isPyDigit a && isPyDigit b && isPyDigit c &&
      ((match rest with
        | ['.', d, e] => isPyDigit d && isPyDigit e
        | _ => false) || usTail rest)
  | _ => false

/-- Full match of `^\d{1,3}(,\d{3})+\.\d{2}$`. -/
def usFormat (l : List Char) : Bool :=
  let ds := l.takeWhile isPyDigit
  decide (1 ≤ ds.length) && decide (ds.length ≤ 3) && usTail (l.drop ds.length)

/-- Model of `float(cleaned)` succeeding, valid for the digit/dot-only
strings produced just before the call: Python's `float` accepts such a
string iff it has at most one `'.'` and at least one digit. -/
def pyFloatAccepts (l : List Char) : Bool :=
  decide ((l.filter (fun c => c = '.')).length ≤ 1) && l.any isPyDigit

/-- The `cleaned` value of `_normalize_amount` just before the `float`
check: strip, delete digit-separating spaces, apply the regional-format
branch, then delete every character that is not a digit or `.`. -/
def normalizeCleaned (raw : String) : List Char :=
  let c0 := rmDigitSpaces (pyStripList raw.toList)
  let c1 :=
    if euroFormat c0 then
      (c0.filter (fun c => c ≠ '.')).map (fun c => if c = ',' then '.' else c)
    else if usFormat c0 then
      c0.filter (fun c => c ≠ ',')
    else if c0.contains ',' && !c0.contains '.' then
      c0.map (fun c => if c = ',' then '.' else c)
    else c0
  c1.filter (fun c => isPyDigit c || c = '.')

def _normalize_amount (raw : String) : Option String :=
  if raw = "" then none
  else if pyFloatAccepts (normalizeCleaned raw) then some ⟨normalizeCleaned raw⟩
  else some (pyStrip raw)

/-!
## A small regular-expression engine

The extraction primitives in `pdf_extractor.py` are driven by `re.search`
and `re.findall`.  Each pattern of the source is transcribed below into the
`RE` syntax tree; the matcher implements Python's leftmost search with
backtracking priority (alternatives tried left to right, greedy quantifiers
prefer longer, lazy quantifiers prefer shorter), numbered capture groups,
and the non-`MULTILINE` meaning of `$`.
-/

/-- Regular-expression syntax.  `rep lo hi lz a` is `a{lo,hi}` (`hi = none`
for an unbounded repeat), lazy when `lz` is true; `grp i a` is the `i`-th
capturing group `(a)`; `eol` is `$`. -/
inductive RE where
  | eps
  | chr (c : Char)
  | cls (p : Char → Bool)
  | seq (a b : RE)
  | alt (a b : RE)
  | rep (lo : Nat) (hi : Option Nat) (lz : Bool) (a : RE)
  | grp (i : Nat) (a : RE)
  | eol

namespace RE

/-- Literal string (what `re.escape` produces for the label texts). -/
def lit (s : String) : RE :=
  s.toList.foldr (fun c r => seq (chr c) r) eps

/-- Sequence of several pieces. -/
def seqs (l : List RE) : RE :=
  l.foldr seq eps

/-- Ordered alternation `x1|x2|...` (first alternative has priority). -/
def alts : List RE → RE
  | [] => eps
  | [x] => x
  | x :: xs => alt x (alts xs)

/-- `a*` (greedy). -/
def star (a : RE) : RE := rep 0 none false a
/-- `a+` (greedy). -/
def plus (a : RE) : RE := rep 1 none false a
/-- `a?` (greedy). -/
def opt (a : RE) : RE := rep 0 (some 1) false a

/-- Number of syntax nodes, used to size the matcher's fuel. -/
def size : RE → Nat
  | eps | chr _ | cls _ | eol => 1
  | seq a b | alt a b => size a + size b + 1
  | rep _ _ _ a | grp _ a => size a + 1

end RE

/-- Character comparison for a literal, honouring `re.IGNORECASE` (ASCII). -/
def chrHit (ci : Bool) (c x : Char) : Bool :=
  x = c || (ci && pyLowerChar x = pyLowerChar c)

/-- Character-class test, honouring `re.IGNORECASE` (ASCII): under
`IGNORECASE` a character matches if it or a case-swapped variant is in the
class. -/
def clsHit (ci : Bool) (p : Char → Bool) (x : Char) : Bool :=
  p x || (ci && (p (pyLowerChar x) || p (pyUpperChar x)))

/-- Capture store: group number to captured characters, most recent first. -/
abbrev Caps := List (Nat × List Char)

/-- Backtracking matcher.  `mtch ci fuel re inp caps` returns every way
`re` can match a prefix of `inp`, as `(rest, caps)` pairs in backtracking
priority order (Python's match is the head).  All recursion is on `fuel`;
since every repetition body in the transcribed patterns consumes input, the
call-tree depth is at most about `size re * (inp.length + 1)`, and the fuel
chosen by `reSearch` below is larger than that. -/
def mtch (ci : Bool) : Nat → RE → List Char → Caps → List (List Char × Caps)
  | 0, _, _, _ => []
  | _ + 1, .eps, inp, caps => [(inp, caps)]
  | _ + 1, .chr c, inp, caps =>
    match inp with
    | [] => []
    | x :: r => if chrHit ci c x then [(r, caps)] else []
  | _ + 1, .cls p, inp, caps =>
    match inp with
    | [] => []
    | x :: r => if clsHit ci p x then [(r, caps)] else []
  | f + 1, .seq a b, inp, caps =>
    (mtch ci f a inp caps).flatMap fun rc => mtch ci f b rc.1 rc.2
  | f + 1, .alt a b, inp, caps =>
    mtch ci f a inp caps ++ mtch ci f b inp caps
  | f + 1, .grp i a, inp, caps =>
    (mtch ci f a inp caps).map fun rc =>
      (rc.1, (i, inp.take (inp.length - rc.1.length)) :: rc.2)
  | _ + 1, .eol, inp, caps =>
    if inp.isEmpty || inp = ['\n'] then [(inp, caps)] else []
  | f + 1, .rep lo hi lz a, inp, caps =>
    match lo, hi with
    | 0, some 0 => [(inp, caps)]
    | 0, _ =>
      let go := (mtch ci f a inp caps).flatMap fun rc =>
        if rc.1.length < inp.length then
          mtch ci f (.rep 0 (hi.map (· - 1)) lz a) rc.1 rc.2
        else
          -- the body matched without consuming input: stop iterating
          [(rc.1, rc.2)]
      if lz then (inp, caps) :: go else go ++ [(inp, caps)]
    | l + 1, _ =>
      (mtch ci f a inp caps).flatMap fun rc =>
        mtch ci f (.rep l (hi.map (· - 1)) lz a) rc.1 rc.2

/-- Fuel that over-approximates the matcher's call-tree depth. -/
def reFuel (re : RE) (l : List Char) : Nat :=
  (re.size + 4) * (l.length + 4) + 64

/-- `re.search`: leftmost match.  Returns `(matched, rest, caps)` where the
input is `prefixBeforeMatch ++ matched ++ rest`. -/
def reSearch (ci : Bool) (re : RE) : List Char → Option (List Char × List Char × Caps)
  | [] =>
    match mtch ci (reFuel re []) re [] [] with
    | (rest, caps) :: _ => some ([], rest, caps)
    | [] => none
  | c :: r =>
    match mtch ci (reFuel re (c :: r)) re (c :: r) [] with
    | (rest, caps) :: _ =>
      some ((c :: r).take ((c :: r).length - rest.length), rest, caps)
    | [] => reSearch ci re r

/-- `re.match`: anchored at the start of the input. -/
def reMatchStart (ci : Bool) (re : RE) (l : List Char) :
    Option (List Char × List Char × Caps) :=
  match mtch ci (reFuel re l) re l [] with
  | (rest, caps) :: _ => some (l.take (l.length - rest.length), rest, caps)
  | [] => none

/-- Captured text of group `i` (Python `match.group(i)`; every transcribed
group participates in any successful match, so a missing entry is read as
the empty capture). -/
def capGroup (caps : Caps) (i : Nat) : String :=
  ⟨(caps.lookup i).getD []⟩

/-- `re.search(...).group(i)` as one step. -/
def searchGrp (ci : Bool) (re : RE) (text : String) (i : Nat) : Option String :=
  (reSearch ci re text.toList).map fun m => capGroup m.2.2 i

/-- `re.search(...).group(0)`: the whole matched text. -/
def searchWhole (ci : Bool) (re : RE) (text : String) : Option String :=
  (reSearch ci re text.toList).map fun m => ⟨m.1⟩

/-- Fuelled worker for `reFindAll`. -/
def reFindAllF (ci : Bool) (re : RE) : Nat → List Char → List (List Char × Caps)
  | 0, _ => []
  | f + 1, l =>
    match reSearch ci re l with
    | none => []
    | some (matched, rest, caps) =>
      (matched, caps) ::
        (if matched.isEmpty then
          match rest with
          | [] => []
          | _ :: r2 => reFindAllF ci re f r2
        else reFindAllF ci re f rest)

/-- `re.finditer`-style scan: non-overlapping matches, left to right, each
as `(matchedChars, captures)`. -/
def reFindAll (ci : Bool) (re : RE) (l : List Char) : List (List Char × Caps) :=
  reFindAllF ci re (l.length + 2) l

/-!
## Pattern transcriptions

Every regex of `pdf_extractor.py` below is transcribed node for node; the
original pattern is quoted in the comment.  (Inside comments the division
slash `∕` stands for the ASCII slash of the original pattern wherever the
original would prematurely close a Lean block comment.)
-/

/-- `\d` -/
def dgt : RE := RE.cls isPyDigit
/-- `\w` -/
def wrd : RE := RE.cls isPyWord
/-- `\s` -/
def spc : RE := RE.cls isPySpace
/-- `.` without `re.DOTALL` -/
def anyNoNL : RE := RE.cls (fun c => c ≠ '\n')
/-- `.` under `re.DOTALL` -/
def anyCh : RE := RE.cls (fun _ => true)
/-- `[:\s]` -/
def colonOrSpace : RE := RE.cls (fun c => c = ':' || isPySpace c)
/-- `A`–`Z` -/
def isUpperAZ (c : Char) : Bool := 'A' ≤ c && c ≤ 'Z'
/-- `a`–`z` or `A`–`Z` -/
def isAsciiAlpha (c : Char) : Bool := ('a' ≤ c && c ≤ 'z') || isUpperAZ c
/-- `a{m,n}` (greedy) -/
def repG (m n : Nat) (a : RE) : RE := RE.rep m (some n) false a
/-- `a{m,n}?` (lazy) -/
def repL (m n : Nat) (a : RE) : RE := RE.rep m (some n) true a
/-- `\s*` -/
def ws0 : RE := RE.star spc
/-- `\s+` -/
def ws1 : RE := RE.plus spc
/-- `\s*[:\s]\s*` — the mandatory label separator -/
def sepColon : RE := RE.seqs [ws0, colonOrSpace, ws0]
/-- `\s*[:\s]?\s*` — the optional label separator -/
def sepColonOpt : RE := RE.seqs [ws0, RE.opt colonOrSpace, ws0]
/-- `(?:\n|$)` -/
def nlOrEnd : RE := RE.alt (RE.chr '\n') RE.eol

/-- `(?:[$€£¥₹]|kr\.?|NOK|SEK|DKK|USD|EUR|GBP|CHF)` (AMOUNT_RE currency marker) -/
def currencyMarker : RE :=
  RE.alts [RE.cls (fun c => c = '$' || c = '€' || c = '£' || c = '¥' || c = '₹'),
    RE.seq (RE.lit "kr") (RE.opt (RE.chr '.')),
    RE.lit "NOK", RE.lit "SEK", RE.lit "DKK", RE.lit "USD",
    RE.lit "EUR", RE.lit "GBP", RE.lit "CHF"]

/-- `([\d]{1,3}(?:[,.\s]?\d{3})*(?:[.,]\d{1,2})?)` — the amount capture of
`AMOUNT_RE` and `_extract_labeled_amount`. -/
def amountGroup : RE :=
  RE.grp 1 (RE.seqs [repG 1 3 dgt,
    RE.star (RE.seq (RE.opt (RE.cls (fun c => c = ',' || c = '.' || isPySpace c))) (repG 3 3 dgt)),
    RE.opt (RE.seq (RE.cls (fun c => c = '.' || c = ',')) (repG 1 2 dgt))])

/-- DATE_PATTERNS (pdf_extractor.py lines 76–85), in source order:
`(\d{4}[-∕]\d{1,2}[-∕]\d{1,2})`, `(\d{1,2}[./]\d{1,2}[./]\d{2,4})`,
`(\w{3,9}\s+\d{1,2},?\s+\d{4})`, `(\d{1,2}\s*\w{3}\s*\d{4})`. -/
def DATE_PATTERNS : List RE :=
  [RE.grp 1 (RE.seqs [repG 4 4 dgt, RE.cls (fun c => c = '-' || c = '/'),
      repG 1 2 dgt, RE.cls (fun c => c = '-' || c = '/'), repG 1 2 dgt]),
   RE.grp 1 (RE.seqs [repG 1 2 dgt, RE.cls (fun c => c = '.' || c = '/'),
      repG 1 2 dgt, RE.cls (fun c => c = '.' || c = '/'), repG 2 4 dgt]),
   RE.grp 1 (RE.seqs [repG 3 9 wrd, ws1, repG 1 2 dgt, RE.opt (RE.chr ','), ws1, repG 4 4 dgt]),
   RE.grp 1 (RE.seqs [repG 1 2 dgt, ws0, repG 3 3 wrd, ws0, repG 4 4 dgt])]

/-- `[\w\-∕]` -/
def wordDashSlash : RE := RE.cls (fun c => isPyWord c || c = '-' || c = '/')

/-- `_extract_invoice_number` patterns (lines 546–551), with confidences. -/
def invoiceNumberPatterns : List (RE × ℚ) :=
  [ -- (?:Invoice|Inv|Faktura)[\s.#:]*(?:No\.?|Number|Nr\.?|#)?\s*[:\s]?\s*([A-Z0-9][\w\-∕]{2,20})
    (RE.seqs [RE.alts [RE.lit "Invoice", RE.lit "Inv", RE.lit "Faktura"],
      RE.star (RE.cls (fun c => isPySpace c || c = '.' || c = '#' || c = ':')),
      RE.opt (RE.alts [RE.seq (RE.lit "No") (RE.opt (RE.chr '.')), RE.lit "Number",
        RE.seq (RE.lit "Nr") (RE.opt (RE.chr '.')), RE.chr '#']),
      sepColonOpt,
      RE.grp 1 (RE.seq (RE.cls (fun c => isUpperAZ c || isPyDigit c)) (repG 2 20 wordDashSlash))],
     0.95),
    -- (?:Invoice|Faktura)\s*[:\s]+\s*([A-Z0-9][\w\-∕]{2,20})
    (RE.seqs [RE.alts [RE.lit "Invoice", RE.lit "Faktura"],
      ws0, RE.plus colonOrSpace, ws0,
      RE.grp 1 (RE.seq (RE.cls (fun c => isUpperAZ c || isPyDigit c)) (repG 2 20 wordDashSlash))],
     0.90),
    -- (?:Inv|INV)[.\s#-]*(\d[\w\-∕]{2,15})
    (RE.seqs [RE.alts [RE.lit "Inv", RE.lit "INV"],
      RE.star (RE.cls (fun c => c = '.' || isPySpace c || c = '#' || c = '-')),
      RE.grp 1 (RE.seq dgt (repG 2 15 wordDashSlash))],
     0.85),
    -- (?:Document|Doc)[\s.#:]*(?:No\.?|Number|Nr\.?)?\s*[:\s]?\s*([A-Z0-9][\w\-∕]{2,20})
    (RE.seqs [RE.alts [RE.lit "Document", RE.lit "Doc"],
      RE.star (RE.cls (fun c => isPySpace c || c = '.' || c = '#' || c = ':')),
      RE.opt (RE.alts [RE.seq (RE.lit "No") (RE.opt (RE.chr '.')), RE.lit "Number",
        RE.seq (RE.lit "Nr") (RE.opt (RE.chr '.'))]),
      sepColonOpt,
      RE.grp 1 (RE.seq (RE.cls (fun c => isUpperAZ c || isPyDigit c)) (repG 2 20 wordDashSlash))],
     0.70)]

/-- `rf"(?:{re.escape(label)})\s*[:\s]\s*{date_pat}"` (line 567). -/
def labeledDateRE (label : String) (datePat : RE) : RE :=
  RE.seqs [RE.lit label, sepColon, datePat]

/-- The labelled-amount pattern of `_extract_labeled_amount` (lines 589–593):
`rf"(?:{label})\s*[:\s]\s*(?:[$€£¥₹]|kr\.?|NOK|SEK|DKK|USD|EUR|GBP|CHF)?\s*([\d]{1,3}(?:[,.\s]?\d{3})*(?:[.,]\d{1,2})?)"` -/
def labeledAmountRE (label : String) : RE :=
  RE.seqs [RE.lit label, sepColon, RE.opt currencyMarker, ws0, amountGroup]

/-- The window-fallback amount pattern of `_extract_labeled_amount`
(line 607): `(?:[$€£]|kr\.?|NOK|USD|EUR)?\s*([\d]{1,3}(?:[,.\s]?\d{3})*(?:[.,]\d{1,2}))`
(trailing decimals are mandatory here). -/
def amountFallbackRE : RE :=
  RE.seqs [RE.opt (RE.alts [RE.cls (fun c => c = '$' || c = '€' || c = '£'),
      RE.seq (RE.lit "kr") (RE.opt (RE.chr '.')),
      RE.lit "NOK", RE.lit "USD", RE.lit "EUR"]),
    ws0,
    RE.grp 1 (RE.seqs [repG 1 3 dgt,
      RE.star (RE.seq (RE.opt (RE.cls (fun c => c = ',' || c = '.' || isPySpace c))) (repG 3 3 dgt)),
      RE.seq (RE.cls (fun c => c = '.' || c = ',')) (repG 1 2 dgt)])]

/-- `rf"(?:{label})\s*[:\s]\s*(.{{2,60}}?)(?:\n|$)"` (line 621). -/
def labeledValueRE (label : String) : RE :=
  RE.seqs [RE.lit label, sepColon, RE.grp 1 (repL 2 60 anyNoNL), nlOrEnd]

/-- `rf"(?:{label})\s*[:\s]\s*(.+?)(?:\n|$)"` (line 634). -/
def entityNameRE (label : String) : RE :=
  RE.seqs [RE.lit label, sepColon, RE.grp 1 (RE.rep 1 none true anyNoNL), nlOrEnd]

/-- The address pattern (lines 657–661):
`((?:\d+\s+\w+\s+(?:Street|St|Ave|Road|Rd|Blvd|Way|Drive|Dr|Lane|Ln|vei|veien|gate|gaten|plass)|[\w\s]+\d+[A-Za-z]?)[\s,]*(?:\d{4,5}\s+\w+)?)` -/
def addressRE : RE :=
  RE.grp 1 (RE.seqs [
    RE.alt
      (RE.seqs [RE.plus dgt, ws1, RE.plus wrd, ws1,
        RE.alts [RE.lit "Street", RE.lit "St", RE.lit "Ave", RE.lit "Road", RE.lit "Rd",
          RE.lit "Blvd", RE.lit "Way", RE.lit "Drive", RE.lit "Dr", RE.lit "Lane",
          RE.lit "Ln", RE.lit "vei", RE.lit "veien", RE.lit "gate", RE.lit "gaten",
          RE.lit "plass"]])
      (RE.seqs [RE.plus (RE.cls (fun c => isPyWord c || isPySpace c)), RE.plus dgt,
        RE.opt (RE.cls isAsciiAlpha)]),
    RE.star (RE.cls (fun c => isPySpace c || c = ',')),
    RE.opt (RE.seqs [repG 4 5 dgt, ws1, RE.plus wrd])])

/-- The tax-id pattern (line 671).  The source writes the f-string
`rf"(?:{re.escape(label)})\s*[:\s]?\s*(\d[\d\s\-]{5,15}\d)"` with single
braces, so Python interpolates `{5,15}` as the tuple `(5, 15)`: the regex
actually compiled is `(?:label)\s*[:\s]?\s*(\d[\d\s\-](5, 15)\d)`, whose
inner parentheses are group 2 matching the literal text `5, 15`. -/
def taxIdRE (label : String) : RE :=
  RE.seqs [RE.lit label, sepColonOpt,
    RE.grp 1 (RE.seqs [dgt, RE.cls (fun c => isPyDigit c || isPySpace c || c = '-'),
      RE.grp 2 (RE.lit "5, 15"), dgt])]

/-- `(\d{1,2}(?:[.,]\d{1,2})?)` — the percentage capture of `_extract_tax_rate`. -/
def pctGroup : RE :=
  RE.grp 1 (RE.seq (repG 1 2 dgt)
    (RE.opt (RE.seq (RE.cls (fun c => c = '.' || c = ',')) (repG 1 2 dgt))))

/-- `_extract_tax_rate` patterns (lines 680–683). -/
def taxRatePatterns : List RE :=
  [ -- (?:vat|mva|tax|gst|moms)\s*(?:rate)?\s*[:\s]?\s*(\d{1,2}(?:[.,]\d{1,2})?)\s*%
    RE.seqs [RE.alts [RE.lit "vat", RE.lit "mva", RE.lit "tax", RE.lit "gst", RE.lit "moms"],
      ws0, RE.opt (RE.lit "rate"), sepColonOpt, pctGroup, ws0, RE.chr '%'],
    -- (\d{1,2}(?:[.,]\d{1,2})?)\s*%\s*(?:vat|mva|tax|gst|moms)
    RE.seqs [pctGroup, ws0, RE.chr '%', ws0,
      RE.alts [RE.lit "vat", RE.lit "mva", RE.lit "tax", RE.lit "gst", RE.lit "moms"]]]

/-- `_extract_payment_terms` patterns with their confidences (lines 693–698). -/
def paymentTermsPatterns : List (RE × ℚ) :=
  [ -- (?:payment\s+terms?|betalingsbetingelser?|betalingsvilkår)\s*[:\s]\s*(.{5,80}?)(?:\n|$)
    (RE.seqs [RE.alts [RE.seqs [RE.lit "payment", ws1, RE.lit "term", RE.opt (RE.chr 's')],
        RE.seq (RE.lit "betalingsbetingelse") (RE.opt (RE.chr 'r')),
        RE.lit "betalingsvilkår"],
      sepColon, RE.grp 1 (repL 5 80 anyNoNL), nlOrEnd],
     0.90),
    -- (net\s+\d+\s*(?:days)?)
    (RE.grp 1 (RE.seqs [RE.lit "net", ws1, RE.plus dgt, ws0, RE.opt (RE.lit "days")]), 0.85),
    -- (?:due\s+in|betaling\s+innen)\s+(\d+\s*(?:days|dager|calendar days))
    (RE.seqs [RE.alt (RE.seqs [RE.lit "due", ws1, RE.lit "in"])
        (RE.seqs [RE.lit "betaling", ws1, RE.lit "innen"]),
      ws1,
      RE.grp 1 (RE.seqs [RE.plus dgt, ws0,
        RE.alts [RE.lit "days", RE.lit "dager", RE.lit "calendar days"]])],
     0.80),
    -- ((?:30|45|60|90)\s*(?:days|dager)\s*(?:net|netto)?)
    (RE.grp 1 (RE.seqs [RE.alts [RE.lit "30", RE.lit "45", RE.lit "60", RE.lit "90"],
      ws0, RE.alts [RE.lit "days", RE.lit "dager"], ws0,
      RE.opt (RE.alts [RE.lit "net", RE.lit "netto"])]), 0.75)]

/-- `_extract_bank_info` patterns with their confidences (lines 708–712). -/
def bankInfoPatterns : List (RE × ℚ) :=
  [ -- (?:IBAN|iban)\s*[:\s]?\s*([A-Z]{2}\d{2}[\s]?[\dA-Z\s]{10,30})
    (RE.seqs [RE.alts [RE.lit "IBAN", RE.lit "iban"], sepColonOpt,
      RE.grp 1 (RE.seqs [repG 2 2 (RE.cls isUpperAZ), repG 2 2 dgt, RE.opt spc,
        repG 10 30 (RE.cls (fun c => isPyDigit c || isUpperAZ c || isPySpace c))])],
     0.95),
    -- (?:Account|Konto|Kontonr)\s*[:\s]?\s*([\d\s.]{8,20})
    (RE.seqs [RE.alts [RE.lit "Account", RE.lit "Konto", RE.lit "Kontonr"], sepColonOpt,
      RE.grp 1 (repG 8 20 (RE.cls (fun c => isPyDigit c || isPySpace c || c = '.')))],
     0.80),
    -- (?:SWIFT|BIC)\s*[:\s]?\s*([A-Z]{6}[A-Z0-9]{2,5})
    (RE.seqs [RE.alts [RE.lit "SWIFT", RE.lit "BIC"], sepColonOpt,
      RE.grp 1 (RE.seq (repG 6 6 (RE.cls isUpperAZ))
        (repG 2 5 (RE.cls (fun c => isUpperAZ c || isPyDigit c))))],
     0.90)]

/-- `(?:between|mellom)\s+(.+?)\s+(?:and|og)\s+(.+?)(?:\.|,|\(|\n)` (line 817). -/
def betweenRE : RE :=
  RE.seqs [RE.alt (RE.lit "between") (RE.lit "mellom"), ws1,
    RE.grp 1 (RE.rep 1 none true anyNoNL), ws1,
    RE.alt (RE.lit "and") (RE.lit "og"), ws1,
    RE.grp 2 (RE.rep 1 none true anyNoNL),
    RE.alts [RE.chr '.', RE.chr ',', RE.chr '(', RE.chr '\n']]

/-- `(?:party\s*[AB12]|part\s*[12])\s*[:\s]\s*(.+?)(?:\n|$)` (line 824). -/
def partyRE : RE :=
  RE.seqs [RE.alt
      (RE.seqs [RE.lit "party", ws0, RE.cls (fun c => c = 'A' || c = 'B' || c = '1' || c = '2')])
      (RE.seqs [RE.lit "part", ws0, RE.cls (fun c => c = '1' || c = '2')]),
    sepColon, RE.grp 1 (RE.rep 1 none true anyNoNL), nlOrEnd]

/-- `rf"(?:\d+\.?\s*)?{label}[:\s.]*\n(.{{20,300}}?)(?:\n\n|\n\d+\.)"` with
`re.DOTALL` (line 858). -/
def clauseRE (label : String) : RE :=
  RE.seqs [RE.opt (RE.seqs [RE.plus dgt, RE.opt (RE.chr '.'), ws0]),
    RE.lit label,
    RE.star (RE.cls (fun c => c = ':' || isPySpace c || c = '.')),
    RE.chr '\n',
    RE.grp 1 (repL 20 300 anyCh),
    RE.alt (RE.lit "\n\n") (RE.seqs [RE.chr '\n', RE.plus dgt, RE.chr '.'])]

/-- `_extract_period` patterns (lines 887–890). -/
def periodPatterns : List RE :=
  [ -- (?:period|periode|for the year|for året)\s*[:\s]?\s*(.{5,50}?)(?:\n|$)
    RE.seqs [RE.alts [RE.lit "period", RE.lit "periode", RE.lit "for the year", RE.lit "for året"],
      sepColonOpt, RE.grp 1 (repL 5 50 anyNoNL), nlOrEnd],
    -- (\d{4}[-∕]\d{1,2}[-∕]\d{1,2})\s*[-–to]+\s*(\d{4}[-∕]\d{1,2}[-∕]\d{1,2})
    RE.seqs [RE.grp 1 (RE.seqs [repG 4 4 dgt, RE.cls (fun c => c = '-' || c = '/'),
        repG 1 2 dgt, RE.cls (fun c => c = '-' || c = '/'), repG 1 2 dgt]),
      ws0, RE.plus (RE.cls (fun c => c = '-' || c = '–' || c = 't' || c = 'o')), ws0,
      RE.grp 2 (RE.seqs [repG 4 4 dgt, RE.cls (fun c => c = '-' || c = '/'),
        repG 1 2 dgt, RE.cls (fun c => c = '-' || c = '/'), repG 1 2 dgt])]]

/-- `(.{3,50}?)\s{2,}([\d,.\s]+\d)\s*$` — the text-layout statement line
parser (line 904), used with `re.match` and no flags. -/
def stmtLineRE : RE :=
  RE.seqs [RE.grp 1 (repL 3 50 anyNoNL),
    RE.rep 2 none false spc,
    RE.grp 2 (RE.seq (RE.plus (RE.cls (fun c => isPyDigit c || c = ',' || c = '.' || isPySpace c))) dgt),
    ws0, RE.eol]

/-- Generic-extractor harvest pattern `(?:[$€£]|kr\.?|NOK|USD|EUR)\s*[\d,.\s]+\d`
(line 493, `re.IGNORECASE`, no capture group). -/
def genericAmountRE : RE :=
  RE.seqs [RE.alts [RE.cls (fun c => c = '$' || c = '€' || c = '£'),
      RE.seq (RE.lit "kr") (RE.opt (RE.chr '.')),
      RE.lit "NOK", RE.lit "USD", RE.lit "EUR"],
    ws0,
    RE.plus (RE.cls (fun c => isPyDigit c || c = ',' || c = '.' || isPySpace c)), dgt]

/-- `[\w.+-]+@[\w.-]+\.\w{2,}` (line 503). -/
def emailRE : RE :=
  RE.seqs [RE.plus (RE.cls (fun c => isPyWord c || c = '.' || c = '+' || c = '-')),
    RE.chr '@',
    RE.plus (RE.cls (fun c => isPyWord c || c = '.' || c = '-')),
    RE.chr '.', RE.rep 2 none false wrd]

/-- `(?:\+\d{1,3}[\s-]?)?\(?\d{2,4}\)?[\s.-]?\d{3,4}[\s.-]?\d{3,4}` (line 508). -/
def phoneRE : RE :=
  RE.seqs [RE.opt (RE.seqs [RE.chr '+', repG 1 3 dgt,
      RE.opt (RE.cls (fun c => isPySpace c || c = '-'))]),
    RE.opt (RE.chr '('), repG 2 4 dgt, RE.opt (RE.chr ')'),
    RE.opt (RE.cls (fun c => isPySpace c || c = '.' || c = '-')), repG 3 4 dgt,
    RE.opt (RE.cls (fun c => isPySpace c || c = '.' || c = '-')), repG 3 4 dgt]

/-- `https?://[^\s<>\"']+|www\.[^\s<>\"']+` (line 513). -/
def urlRE : RE :=
  RE.alt
    (RE.seqs [RE.lit "http", RE.opt (RE.chr 's'), RE.lit "://",
      RE.plus (RE.cls (fun c => !(isPySpace c || c = '<' || c = '>' || c = '"' || c = Char.ofNat 39)))])
    (RE.seqs [RE.lit "www.",
      RE.plus (RE.cls (fun c => !(isPySpace c || c = '<' || c = '>' || c = '"' || c = Char.ofNat 39)))])

/-!
## Field extraction primitives (pdf_extractor.py lines 544–738)

Each primitive returns the Python pair `(value, confidence)`.
-/

/-- `_extract_invoice_number` (lines 544–559). -/
def _extract_invoice_number (text : String) : Option String × ℚ :=
  match firstSome (fun pc =>
      (searchGrp true pc.1 text 1).bind fun g =>
        let value := pyStrip g
        -- if len(value) >= 2 and not value.lower() in ("date", "to", "from", "number")
        if value.length ≥ 2 &&
            !(["date", "to", "from", "number"].contains (pyLower value)) then
          some (value, pc.2)
        else none)
    invoiceNumberPatterns with
  | some vc => (some vc.1, vc.2)
  | none => (none, 0)

/-- `_extract_labeled_date` (lines 562–582). -/
def _extract_labeled_date (text : String) (labels : List String) : Option String × ℚ :=
  -- for label in labels: for date_pat in DATE_PATTERNS: search "label [:\s] date"
  match firstSome (fun lb =>
      firstSome (fun dp => (searchGrp true (labeledDateRE lb dp) text 1).map pyStrip)
        DATE_PATTERNS)
    labels with
  | some v => (some v, 0.90)
  | none =>
    -- fallback: any date shape in the 100 characters after the label position
    match firstSome (fun lb =>
        match listFindSub (pyLower lb).toList (pyLower text).toList with
        | none => none
        | some pos =>
          let nearby := (text.toList.drop pos).take 100
          firstSome (fun dp =>
              (reSearch false dp nearby).map fun m => pyStrip (capGroup m.2.2 1))
            DATE_PATTERNS)
      labels with
    | some v => (some v, 0.70)
    | none => (none, 0)

/-- `_extract_labeled_amount` (lines 585–615). -/
def _extract_labeled_amount (text : String) (labels : List String) : Option String × ℚ :=
  match firstSome (fun lb =>
      (searchGrp true (labeledAmountRE lb) text 1).bind fun g =>
        match _normalize_amount (pyStrip g) with
        | some n => if n ≠ "" then some n else none   -- `if normalized:`
        | none => none)
    labels with
  | some v => (some v, 0.90)
  | none =>
    -- fallback: last amount within the 80 characters after the label position
    match firstSome (fun lb =>
        match listFindSub (pyLower lb).toList (pyLower text).toList with
        | none => none
        | some pos =>
          let nearby := (text.toList.drop pos).take 80
          let amounts := (reFindAll true amountFallbackRE nearby).map fun mc => capGroup mc.2 1
          match amounts.getLast? with
          | none => none
          | some raw =>
            match _normalize_amount raw with
            | some n => if n ≠ "" then some n else none
            | none => none)
      labels with
    | some v => (some v, 0.65)
    | none => (none, 0)

/-- `_extract_labeled_value` (lines 618–627). -/
def _extract_labeled_value (text : String) (labels : List String) : Option String × ℚ :=
  match firstSome (fun lb =>
      (searchGrp true (labeledValueRE lb) text 1).bind fun g =>
        let value := pyRstripDot (pyStrip g)
        if value ≠ "" && value.length > 1 then some value else none)
    labels with
  | some v => (some v, 0.80)
  | none => (none, 0)

/-- The legal-suffix words of the `re.sub` in `_extract_entity_name`
(line 639), in alternation order. -/
def entitySuffixWords : List String :=
  ["AS", "A/S", "Ltd", "LLC", "Inc", "GmbH", "AB", "Oy", "ApS"]

/-- Case-insensitive (ASCII) prefix test. -/
def listStartsWithCI : List Char → List Char → Bool
  | [], _ => true
  | _ :: _, [] => false
  | p :: ps, h :: hs => pyLowerChar p = pyLowerChar h && listStartsWithCI ps hs

/-- One anchored attempt of `\s*(AS|A/S|...)\s*$` at the current position:
greedy `\s*`, then the first alternative word that matches (case
insensitively) with only whitespace after it.  Returns the matched word as
it appears in the input (`\1` keeps the original case). -/
def entitySuffixAt (t : List Char) : Option (List Char) :=
  let t1 := t.dropWhile isPySpace
  firstSome (fun w =>
      if listStartsWithCI w.toList t1 && (t1.drop w.length).all isPySpace then
        some (t1.take w.length)
      else none)
    entitySuffixWords

/-- `re.sub(r"\s*(AS|A/S|Ltd|LLC|Inc|GmbH|AB|Oy|ApS)\s*$", r" \1", name,
flags=re.IGNORECASE)`: the match, if any, runs to the end of the string, so
the leftmost match is replaced by a space plus the captured word. -/
def entitySuffixSubGo (acc : List Char) : List Char → List Char
  | [] => acc.reverse
  | c :: r =>
    match entitySuffixAt (c :: r) with
    | some w => acc.reverse ++ ' ' :: w
    | none => entitySuffixSubGo (c :: acc) r

def entitySuffixSub (name : String) : String :=
  ⟨entitySuffixSubGo [] name.toList⟩

/-- `_extract_entity_name` (lines 630–651). -/
def _extract_entity_name (text : String) (labels : List String) : Option String × ℚ :=
  match firstSome (fun lb =>
      (searchGrp true (entityNameRE lb) text 1).bind fun g =>
        let name := entitySuffixSub (pyStrip g)
        -- if name and len(name) > 1 and not name.isdigit()
        if name ≠ "" && name.length > 1 && !pyIsDigitStr name then
          some (pyStrip name)
        else none)
    labels with
  | some v => (some v, 0.85)
  | none =>
    -- heuristic: the first line, when short and not starting with a digit
    if (pyStrip ((pySplitLines text).headD "")).length > 2 &&
        !((pyStrip ((pySplitLines text).headD "")).toList.head?.elim false isPyDigit) &&
        (pyStrip ((pySplitLines text).headD "")).length < 60 then
      (some (pyStrip ((pySplitLines text).headD "")), 0.50)
    else (none, 0)

/-- `_extract_address` (lines 654–665); `entity_type` is unused, as in the
source. -/
def _extract_address (text : String) (entity_type : String) : Option String × ℚ :=
  match searchGrp true addressRE text 1 with
  | some g => (some (pyStrip g), 0.60)
  | none => (none, 0)

/-- `_extract_tax_id` (lines 668–675). -/
def _extract_tax_id (text : String) (labels : List String) : Option String × ℚ :=
  match firstSome (fun lb => (searchGrp true (taxIdRE lb) text 1).map pyStrip) labels with
  | some v => (some v, 0.90)
  | none => (none, 0)

/-- `_extract_tax_rate` (lines 678–688). -/
def _extract_tax_rate (text : String) : Option String × ℚ :=
  match firstSome (fun p =>
      (searchGrp true p text 1).map fun g =>
        -- match.group(1).replace(",", ".") + "%"
        String.mk (g.toList.map fun c => if c = ',' then '.' else c) ++ "%")
    taxRatePatterns with
  | some v => (some v, 0.85)
  | none => (none, 0)

/-- `_extract_payment_terms` (lines 691–703). -/
def _extract_payment_terms (text : String) : Option String × ℚ :=
  match firstSome (fun pc =>
      (searchGrp true pc.1 text 1).map fun g => (pyStrip g, pc.2))
    paymentTermsPatterns with
  | some vc => (some vc.1, vc.2)
  | none => (none, 0)

/-- `_extract_bank_info` (lines 706–717). -/
def _extract_bank_info (text : String) : Option String × ℚ :=
  match firstSome (fun pc =>
      (searchGrp true pc.1 text 1).map fun g => (pyStrip g, pc.2))
    bankInfoPatterns with
  | some vc => (some vc.1, vc.2)
  | none => (none, 0)

/-!
## Currency detection (lines 63–67 and 720–738)
-/

/-- `CURRENCY_SYMBOLS` in dict insertion order. -/
def CURRENCY_SYMBOLS : List (String × String) :=
  [("$", "USD"), ("€", "EUR"), ("£", "GBP"), ("kr", "NOK"), ("SEK", "SEK"),
   ("DKK", "DKK"), ("CHF", "CHF"), ("¥", "JPY"), ("₹", "INR"), ("R$", "BRL"),
   ("A$", "AUD"), ("C$", "CAD"), ("zł", "PLN"), ("Kč", "CZK")]

/-- Currency codes scanned with `\b{code}\b` (line 729). -/
def currencyCodes : List String :=
  ["NOK", "USD", "EUR", "GBP", "SEK", "DKK", "CHF"]

/-- `len(re.findall(rf"\b{code}\b", text, re.IGNORECASE))`: number of
positions where `code` occurs with word boundaries on both sides.  The
boundary before position 0 always holds; matches cannot overlap, so
position counting equals `findall` counting. -/
def countWordBounded (code : List Char) (prevIsWord : Bool) : List Char → Nat
  | [] => 0
  | c :: rest =>
    (if !prevIsWord && listStartsWithCI code (c :: rest) &&
        (((c :: rest).drop code.length).head?.elim true (fun d => !isPyWord d)) then 1 else 0)
      + countWordBounded code (isPyWord c) rest

/-- Insert-or-add for the `currency_counts` dict, preserving first-insertion
order. -/
def upsertAdd (k : String) (n : Nat) : List (String × Nat) → List (String × Nat)
  | [] => [(k, n)]
  | (k1, v) :: rest =>
    if k1 = k then (k1, v + n) :: rest else (k1, v) :: upsertAdd k n rest

/-- `max(currency_counts, key=currency_counts.get)`: the first key carrying
the maximal count, in dict order. -/
def firstMaxKey (l : List (String × Nat)) : Option String :=
  (l.foldl (fun best kv =>
      match best with
      | none => some kv
      | some b => if kv.2 > b.2 then some kv else best)
    none).map Prod.fst

/-- The `currency_counts` dict of `_detect_currency` (lines 722–732):
symbol occurrences, then word-bounded code occurrences. -/
def currencyCountsOf (text : String) : List (String × Nat) :=
  currencyCodes.foldl
    (fun acc code =>
      let count := countWordBounded code.toList false text.toList
      if count > 0 then upsertAdd code count acc else acc)
    (CURRENCY_SYMBOLS.foldl
      (fun acc sc =>
        let count := listCountSub (pyLower sc.1).toList (pyLower text).toList
        if count > 0 then upsertAdd sc.2 count acc else acc)
      [])

/-- `_detect_currency` (lines 720–738). -/
def _detect_currency (text : String) : Option String × ℚ :=
  match firstMaxKey (currencyCountsOf text) with
  | some best => (some best, 0.85)
  | none => (none, 0)

/-!
## Contract, statement and clause helpers (lines 812–912)
-/

/-- `_extract_contract_parties` (lines 812–830).  The value is a Python
list: `[]` (not `None`) when nothing matches. -/
def _extract_contract_parties (text : String) : List String × ℚ :=
  match reSearch true betweenRE text.toList with
  | some m => ([pyStrip (capGroup m.2.2 1), pyStrip (capGroup m.2.2 2)], 0.90)
  | none =>
    if !((reFindAll true partyRE text.toList).map fun mc => capGroup mc.2 1).isEmpty then
      ((((reFindAll true partyRE text.toList).map fun mc => capGroup mc.2 1).take 2).map pyStrip,
        0.85)
    else ([], 0)

/-- The `type_keywords` table of `_detect_contract_type` (lines 835–844),
in dict insertion order. -/
def contractTypeTable : List (String × List String) :=
  [("Service Agreement", ["service agreement", "service contract", "tjenesteavtale"]),
   ("Employment Contract", ["employment", "ansettelse", "arbeidsavtale", "employment agreement"]),
   ("NDA", ["non-disclosure", "confidentiality agreement", "nda", "konfidensialitetsavtale"]),
   ("Sales Agreement", ["sales agreement", "purchase agreement", "kjøpsavtale"]),
   ("Lease Agreement", ["lease", "rental", "leieavtale", "husleie"]),
   ("Partnership Agreement", ["partnership", "joint venture", "samarbeidsavtale"]),
   ("Supply Agreement", ["supply agreement", "leveranseavtale", "transportation"]),
   ("Consulting Agreement", ["consulting", "advisory", "konsulentavtale", "rådgivning"])]

/-- `_detect_contract_type` (lines 833–851). -/
def _detect_contract_type (text : String) : String × ℚ :=
  let tl := pyLower text
  match firstSome (fun tk =>
      if tk.2.any (fun kw => strHasSub tl kw) then some tk.1 else none)
    contractTypeTable with
  | some t => (t, 0.85)
  | none => ("General Contract", 0.50)

/-- `_extract_clause` (lines 854–866). -/
def _extract_clause (text : String) (labels : List String) : Option String × ℚ :=
  match firstSome (fun lb =>
      (searchGrp true (clauseRE lb) text 1).map fun g =>
        let clause := pyStrip g
        if clause.length > 200 then pyTake clause 200 ++ "..." else clause)
    labels with
  | some v => (some v, 0.75)
  | none => (none, 0)

/-- `_detect_statement_type` (lines 873–882). -/
def _detect_statement_type (text : String) : String :=
  let tl := pyLower text
  if ["balance sheet", "balanse", "assets and liabilities"].any (fun kw => strHasSub tl kw) then
    "Balance Sheet"
  else if ["income statement", "profit and loss", "p&l", "resultat"].any (fun kw => strHasSub tl kw) then
    "Income Statement"
  else if ["cash flow", "kontantstrøm"].any (fun kw => strHasSub tl kw) then
    "Cash Flow Statement"
  else
    "Financial Statement"

/-- `_extract_period` (lines 885–895): returns `match.group(0).strip()`. -/
def _extract_period (text : String) : Option String :=
  firstSome (fun p => (searchWhole true p text).map pyStrip) periodPatterns

/-- One line of `_extract_statement_from_text`: anchored
`re.match(r"(.{3,50}?)\s{2,}([\d,.\s]+\d)\s*$", line)` (no flags), giving
`(label.strip(), _normalize_amount(number))`. -/
def stmtLineParse (line : String) : Option (String × Option String) :=
  (reMatchStart false stmtLineRE line.toList).map fun m =>
    (pyStrip (capGroup m.2.2 1), _normalize_amount (capGroup m.2.2 2))

/-- `_extract_statement_from_text` (lines 898–912): `some items` models the
non-empty `{"items": ..., "item_count": ...}` dict, `none` the falsy `{}`. -/
def _extract_statement_from_text (text : String) : Option (List (String × Option String)) :=
  let items := (pySplitLines text).filterMap stmtLineParse
  if !items.isEmpty then some items else none

/-!
## Line items (lines 745–805)
-/

/-- The `role_keywords` table of `_map_line_item_columns` (lines 785–794),
in dict insertion order. -/
def roleKeywordTable : List (String × List String) :=
  [("description", ["description", "item", "product", "service", "beskrivelse", "vare", "artikkel", "text"]),
   ("product_code", ["code", "sku", "item no", "art.nr", "varenr", "product code", "item code"]),
   ("quantity", ["qty", "quantity", "antall", "mengde", "antal", "pcs", "units"]),
   ("unit", ["unit", "uom", "enhet"]),
   ("unit_price", ["unit price", "price", "rate", "pris", "enhetspris", "à pris", "unit cost"]),
   ("tax", ["tax", "vat", "mva", "gst", "moms"]),
   ("amount", ["amount", "total", "sum", "beløp", "line total", "extended", "netto"]),
   ("discount", ["discount", "rabatt"])]

/-- The inner `for col_idx, header in enumerate(headers): ... break` scan:
index of the first element satisfying `p`. -/
def scanFirstIdx (p : String → Bool) : List String → Option Nat
  | [] => none
  | h :: t => if p h then some 0 else (scanFirstIdx p t).map (· + 1)

/-- The raw `col_map` of `_map_line_item_columns`, before the
description-or-amount acceptance check. -/
def colMapRaw (headers : List String) : List (String × Nat) :=
  roleKeywordTable.filterMap fun rk =>
    (scanFirstIdx (fun h => rk.2.any fun kw => strHasSub h kw) headers).map fun i => (rk.1, i)

/-- `_map_line_item_columns` (lines 782–805): for each role, the first
header containing one of the role's keywords; the whole map is discarded
unless `description` or `amount` was mapped. -/
def _map_line_item_columns (headers : List String) : List (String × Nat) :=
  if ((colMapRaw headers).lookup "description").isSome ||
      ((colMapRaw headers).lookup "amount").isSome then
    colMapRaw headers
  else []

/-- One line item: `{"line_no": idx}` plus the mapped role fields.  A text
role holds `some cellText`; the numeric roles hold the `_normalize_amount`
result, which can be `none`. -/
structure LineItem where
  line_no : Nat
  fields : List (String × Option String)
  deriving DecidableEq, Repr

/-- `str(cell).strip() if cell else ""` for an optional table cell. -/
def cellStr (c : Option String) : String :=
  pyStrip (c.getD "")

/-- Value stored for one role of one row (lines 768–773): skipped when
the column index falls outside the row; `quantity`, `unit_price`,
`amount` and `tax` pass through `_normalize_amount`. -/
def cellValueForRole (role : String) (row : List (Option String)) (i : Nat) :
    Option (Option String) :=
  if h : i < row.length then
    if role = "quantity" || role = "unit_price" || role = "amount" || role = "tax" then
      some (_normalize_amount (cellStr (row.get ⟨i, h⟩)))
    else
      some (some (cellStr (row.get ⟨i, h⟩)))
  else none

/-- The role fields of one row (lines 767–773). -/
def itemFieldsOfRow (colMap : List (String × Nat)) (row : List (Option String)) :
    List (String × Option String) :=
  colMap.filterMap fun rc =>
    (cellValueForRole rc.1 row rc.2).map fun v => (rc.1, v)

/-- Truthiness of `item.get(key)`: the key is present with a non-empty
string. -/
def fieldTruthy (fields : List (String × Option String)) (k : String) : Bool :=
  match fields.lookup k with
  | some (some s) => s ≠ ""
  | _ => false

/-- `if not row or all(not cell for cell in row): continue` -/
def rowAllEmpty (row : List (Option String)) : Bool :=
  row.isEmpty || row.all fun c => c.getD "" = ""

/-- Line items of one raw table (the per-table body of
`_extract_line_items`, lines 749–777).  Headers are
`str(h).strip().lower() if h else ""`; `line_no` restarts at 1 for each
table. -/
def lineItemsOfTable (raw : List (List (Option String))) : List LineItem :=
  if raw.isEmpty || raw.length < 2 then []
  else
    let headers := (raw.headD []).map fun h => pyLower (pyStrip (h.getD ""))
    let colMap := _map_line_item_columns headers
    if colMap.isEmpty then []
    else
      ((raw.drop 1).enum).filterMap fun ir =>
        let row := ir.2
        if rowAllEmpty row then none
        else
          let item : LineItem := ⟨ir.1 + 1, itemFieldsOfRow colMap row⟩
          -- if item.get("description") or item.get("amount")
          if fieldTruthy item.fields "description" || fieldTruthy item.fields "amount" then
            some item
          else none

/-- `_extract_line_items` (lines 745–779); `full_text` is unused, as in the
source. -/
def _extract_line_items (tables : List (List (List (Option String)))) (full_text : String) :
    List LineItem :=
  tables.flatMap lineItemsOfTable

/-!
## Weighted confidence (lines 943–956)
-/

/-- `_calculate_weighted_confidence`: weighted mean with weight 2.0 for key
fields and 1.0 otherwise; 0.0 on an empty map. -/
def _calculate_weighted_confidence (field_confidences : List (String × ℚ))
    (key_fields : List String) : ℚ :=
  if field_confidences.isEmpty then 0
  else if 0 < (field_confidences.map fun fc =>
      if key_fields.contains fc.1 then (2 : ℚ) else 1).sum then
    (field_confidences.map fun fc =>
        fc.2 * (if key_fields.contains fc.1 then (2 : ℚ) else 1)).sum /
      (field_confidences.map fun fc =>
        if key_fields.contains fc.1 then (2 : ℚ) else 1).sum
  else 0

/-!
## Document-type classifier (`era_dashboard.py` lines 220–240)

Input: the reader outcome for the page texts (`Except.error` models a
raised exception, which the function swallows, returning `"generic"`).
-/

def invoiceTypeKeywords : List String :=
  ["invoice", "invoice no", "inv.", "bill", "faktura", "fakturanr", "fakturanummer"]

def contractTypeKeywords : List String :=
  ["contract", "agreement", "between", "kontrakt", "avtale"]

def statementTypeKeywords : List String :=
  ["balance sheet", "income statement", "cash flow", "p&l", "balanse", "resultatregnskap"]

/-- `_detect_document_type`: looks only at the lower-cased text of the
first page (`""` when there are no pages); keyword groups are tested
invoice, then contract, then statement; otherwise (and on any exception)
`"generic"`. -/
def _detect_document_type (inp : Except String (List (Option String))) : String :=
  match inp with
  | .error _ => "generic"
  | .ok pages =>
    let firstPageText :=
      match pages.head? with
      | some t => pyLower (t.getD "")
      | none => ""
    if invoiceTypeKeywords.any (fun w => strHasSub firstPageText w) then "invoice"
    else if contractTypeKeywords.any (fun w => strHasSub firstPageText w) then "contract"
    else if statementTypeKeywords.any (fun w => strHasSub firstPageText w) then "statement"
    else "generic"

/-!
## Data model

`RawDoc` is the materialized document (spec §3); `PdfInput` is the reader
outcome consumed by an extractor; `PyVal` models the heterogeneous values
of the Python result dicts; `ExtractionResult` is the result shape shared
by all four extractors.
-/

/-- One page as produced by the reader: `page.extract_text()` (possibly
`None`) and `page.extract_tables()` — a list of tables; a table is a list
of rows; a row is a list of optional cell strings. -/
structure Page where
  text : Option String
  tables : List (List (List (Option String)))

abbrev RawDoc := List Page

/-- Reader outcome: `Except.error msg` models an exception raised while
reading the document, caught by the extractor's `try`/`except`. -/
abbrev PdfInput := Except String RawDoc

/-- Values of the Python result dicts. -/
inductive PyVal where
  | none
  | str (s : String)
  | intV (n : Nat)
  | list (l : List PyVal)
  | dict (l : List (String × PyVal))

/-- An optional string as a dict value. -/
def optStrVal : Option String → PyVal
  | Option.none => .none
  | some s => .str s

/-- The `ExtractionResult` dict.  `processing_time` is wall-clock time in
the source and is modelled as `0`. -/
structure ExtractionResult where
  success : Bool
  data : List (String × PyVal)
  confidence : ℚ
  field_confidences : List (String × ℚ)
  error : Option String
  warnings : List String
  requires_review : Bool
  processing_time : ℚ

/-- `_error_result` (lines 975–987). -/
def _error_result (error_msg : String) : ExtractionResult :=
  { success := false
    data := []
    confidence := 0
    field_confidences := []
    error := some error_msg
    warnings := []
    requires_review := false
    processing_time := 0 }

/-- Round half to even at the integer, as Python's `round` does on an
exactly representable value. -/
def rndHalfEven (x : ℚ) : ℤ :=
  let f := Int.floor x
  if x - f < 1/2 then f
  else if 1/2 < x - f then f + 1
  else if Even f then f else f + 1

/-- `round(x, 2)`.  All values the source rounds are exact two-decimal
combinations, so modelling the float rounding by exact rational rounding is
faithful where it is used. -/
def pyRound2 (q : ℚ) : ℚ :=
  (rndHalfEven (q * 100) : ℚ) / 100

/-- `page.extract_text() or ""` -/
def pageText (p : Page) : String :=
  p.text.getD ""

/-- `all_text`: every page's text with `"\n"` appended (lines 131–133). -/
def allTextOf (doc : RawDoc) : String :=
  doc.foldl (fun acc p => acc ++ pageText p ++ "\n") ""

/-- All tables kept by the per-page loops (`if table and len(table) > 1`),
as `(page number, table index, raw table)` with pages numbered from 1. -/
def docTables (doc : RawDoc) : List (Nat × Nat × List (List (Option String))) :=
  doc.enum.flatMap fun ip =>
    ip.2.tables.enum.filterMap fun it =>
      if !it.2.isEmpty && it.2.length > 1 then some (ip.1 + 1, it.1, it.2) else none

/-- `str(h).strip() if h else f"Col_{i}"` for a stored table header. -/
def storedHeader (i : Nat) (h : Option String) : String :=
  if h.getD "" = "" then "Col_" ++ toString i else pyStrip (h.getD "")

def storedHeaders (row0 : List (Option String)) : List String :=
  row0.enum.map fun ih => storedHeader ih.1 ih.2

/-- One stored row: cell keyed by `headers[i]`, or `Col_{i}` past the
header row's width; values are `str(cell).strip() if cell else ""`. -/
def rowDict (headers : List String) (row : List (Option String)) : List (String × PyVal) :=
  row.enum.map fun ic => (headers.getD ic.1 ("Col_" ++ toString ic.1), .str (cellStr ic.2))

/-- A parsed table as stored by the invoice extractor (lines 222–239). -/
def parsedTableVal (pg : Nat) (raw : List (List (Option String))) : PyVal :=
  let headers := storedHeaders (raw.headD [])
  .dict [("page", .intV pg),
    ("headers", .list (headers.map .str)),
    ("rows", .list ((raw.drop 1).map fun row => .dict (rowDict headers row))),
    ("row_count", .intV (raw.drop 1).length)]

/-- A line item as stored in `data["line_items"]`. -/
def lineItemVal (it : LineItem) : PyVal :=
  .dict (("line_no", .intV it.line_no) :: it.fields.map fun kv => (kv.1, optStrVal kv.2))

/-- First-occurrence deduplication.  (Python materializes `list(set(...))`,
whose ordering is unspecified; no claim depends on this ordering.) -/
def dedupKeepFirst (l : List String) : List String :=
  l.foldl (fun acc x => if acc.contains x then acc else acc ++ [x]) []

/-!
## Invoice extractor (`extract_invoice_data_ml`, lines 92–265)
-/

/-- The header-level invoice fields, as `(name, (value, confidence))`, in
the source's insertion order with the source's label lists. -/
def invoiceHeaderFields (t : String) : List (String × (Option String × ℚ)) :=
  [("invoice_number", _extract_invoice_number t),
   ("invoice_date", _extract_labeled_date t
      ["invoice date", "fakturadato", "date", "dato", "issued", "invoice"]),
   ("due_date", _extract_labeled_date t
      ["due date", "forfallsdato", "payment due", "due", "forfall", "betalingsfrist"]),
   ("vendor_name", _extract_entity_name t
      ["from", "vendor", "supplier", "seller", "fra", "leverandør", "selger"]),
   ("vendor_address", _extract_address t "vendor"),
   ("vendor_tax_id", _extract_tax_id t
      ["org.nr", "org nr", "vat", "tax id", "ein", "gst", "mva"]),
   ("buyer_name", _extract_entity_name t
      ["to", "bill to", "buyer", "customer", "client", "til", "kjøper", "kunde"]),
   ("buyer_address", _extract_address t "buyer"),
   ("buyer_tax_id", _extract_tax_id t ["customer vat", "buyer tax", "kundens org"]),
   ("currency", _detect_currency t),
   ("subtotal", _extract_labeled_amount t
      ["subtotal", "sub total", "netto", "net amount", "sum before tax", "grunnlag"]),
   ("tax_amount", _extract_labeled_amount t
      ["tax", "vat", "mva", "gst", "sales tax", "merverdiavgift", "moms"]),
   ("tax_rate", _extract_tax_rate t),
   ("total_amount", _extract_labeled_amount t
      ["total", "grand total", "amount due", "totalt", "sum", "balance due",
       "total amount", "invoice total", "å betale"]),
   ("amount_due", _extract_labeled_amount t
      ["amount due", "balance due", "å betale", "til betaling", "outstanding"]),
   ("payment_terms", _extract_payment_terms t),
   ("purchase_order", _extract_labeled_value t
      ["po number", "purchase order", "po#", "p.o.", "bestillingsnr", "innkjøpsordre"]),
   ("reference", _extract_labeled_value t
      ["reference", "ref", "referanse", "your ref", "vår ref", "our ref"]),
   ("bank_account", _extract_bank_info t)]

def invoiceFieldConfs (t : String) : List (String × ℚ) :=
  (invoiceHeaderFields t).map fun kv => (kv.1, kv.2.2)

/-- `key_fields` of the invoice extractor (line 244). -/
def invoiceKeyFields : List String :=
  ["invoice_number", "invoice_date", "vendor_name", "total_amount"]

/-- The pre-rounding overall invoice confidence (line 245). -/
def invoiceOverallConf (t : String) : ℚ :=
  _calculate_weighted_confidence (invoiceFieldConfs t) invoiceKeyFields

def invoiceFieldValue (t : String) (k : String) : Option String :=
  ((invoiceHeaderFields t).lookup k).bind fun vc => vc.1

/-- Truthiness of an optional string (`if not fields.get(...)`). -/
def optTruthy (o : Option String) : Bool :=
  o.elim false (· ≠ "")

/-- `_validate_invoice_fields` (lines 959–972). -/
def _validate_invoice_fields (invoice_number invoice_date total_amount vendor_name :
    Option String) (line_items : List LineItem) : List String :=
  (if !optTruthy invoice_number then ["Invoice number not detected"] else []) ++
  (if !optTruthy invoice_date then ["Invoice date not detected"] else []) ++
  (if !optTruthy total_amount then ["Total amount not detected"] else []) ++
  (if !optTruthy vendor_name then ["Vendor name not detected"] else []) ++
  (if line_items.isEmpty then ["No line items found — check if document has a table"] else [])

/-- The invoice line items (line 218): every kept raw table, with the full
text as the unused second argument. -/
def invoiceLineItems (doc : RawDoc) : List LineItem :=
  _extract_line_items ((docTables doc).map fun x => x.2.2) (allTextOf doc)

/-- `data` of a successful invoice extraction (fields, then `line_items`,
`tables`, `pages_processed`). -/
def invoiceData (doc : RawDoc) : List (String × PyVal) :=
  let t := allTextOf doc
  ((invoiceHeaderFields t).map fun kv => (kv.1, optStrVal kv.2.1)) ++
  [("line_items", .list ((invoiceLineItems doc).map lineItemVal)),
   ("tables", .list ((docTables doc).filterMap fun x =>
      if !x.2.2.isEmpty && x.2.2.length > 1 then some (parsedTableVal x.1 x.2.2) else Option.none)),
   ("pages_processed", .intV doc.length)]

/-- `extract_invoice_data_ml`.  `use_fine_tuned` is accepted and unused, as
in the source. -/
def extract_invoice_data_ml (inp : PdfInput) (use_fine_tuned : Bool) :
    ExtractionResult :=
  match inp with
  | .error msg => _error_result msg
  | .ok doc =>
    let t := allTextOf doc
    if pyStrip t = "" then _error_result "No text could be extracted from this PDF"
    else
      let overall := invoiceOverallConf t
      { success := true
        data := invoiceData doc
        confidence := pyRound2 overall
        field_confidences := (invoiceFieldConfs t).map fun kv => (kv.1, pyRound2 kv.2)
        error := none
        warnings := _validate_invoice_fields
          (invoiceFieldValue t "invoice_number") (invoiceFieldValue t "invoice_date")
          (invoiceFieldValue t "total_amount") (invoiceFieldValue t "vendor_name")
          (invoiceLineItems doc)
        requires_review := decide (overall < 0.60)
        processing_time := 0 }

/-!
## Contract extractor (`extract_contract_data_ml`, lines 272–348)
-/

def contractPartiesOf (t : String) : List String × ℚ := _extract_contract_parties t

/-- The contract field confidences, in insertion order (lines 291–326). -/
def contractFieldConfs (t : String) : List (String × ℚ) :=
  [("parties", (_extract_contract_parties t).2),
   ("contract_type", (_detect_contract_type t).2),
   ("effective_date", (_extract_labeled_date t
      ["effective date", "commencement", "start date", "ikrafttredelse", "fra dato"]).2),
   ("expiration_date", (_extract_labeled_date t
      ["expiration", "termination", "end date", "expiry", "utløpsdato", "til dato"]).2),
   ("signing_date", (_extract_labeled_date t
      ["signed", "executed", "dated", "signature date", "signert"]).2),
   ("governing_law", (_extract_labeled_value t
      ["governing law", "jurisdiction", "applicable law", "lovvalg"]).2),
   ("payment_terms", (_extract_payment_terms t).2),
   ("termination_clause", (_extract_clause t ["termination", "oppsigelse"]).2),
   ("liability", (_extract_clause t ["liability", "ansvar", "indemnification"]).2),
   ("confidentiality", (_extract_clause t
      ["confidential", "konfidensialitet", "non-disclosure", "nda"]).2),
   ("contract_value", (_extract_labeled_amount t
      ["total value", "contract value", "amount", "consideration", "price", "pris"]).2),
   ("currency", (_detect_currency t).2)]

/-- `data` of a successful contract extraction, same order plus
`pages_processed`. -/
def contractData (doc : RawDoc) : List (String × PyVal) :=
  let t := allTextOf doc
  [("parties", .list ((_extract_contract_parties t).1.map .str)),
   ("contract_type", .str (_detect_contract_type t).1),
   ("effective_date", optStrVal (_extract_labeled_date t
      ["effective date", "commencement", "start date", "ikrafttredelse", "fra dato"]).1),
   ("expiration_date", optStrVal (_extract_labeled_date t
      ["expiration", "termination", "end date", "expiry", "utløpsdato", "til dato"]).1),
   ("signing_date", optStrVal (_extract_labeled_date t
      ["signed", "executed", "dated", "signature date", "signert"]).1),
   ("governing_law", optStrVal (_extract_labeled_value t
      ["governing law", "jurisdiction", "applicable law", "lovvalg"]).1),
   ("payment_terms", optStrVal (_extract_payment_terms t).1),
   ("termination_clause", optStrVal (_extract_clause t ["termination", "oppsigelse"]).1),
   ("liability", optStrVal (_extract_clause t ["liability", "ansvar", "indemnification"]).1),
   ("confidentiality", optStrVal (_extract_clause t
      ["confidential", "konfidensialitet", "non-disclosure", "nda"]).1),
   ("contract_value", optStrVal (_extract_labeled_amount t
      ["total value", "contract value", "amount", "consideration", "price", "pris"]).1),
   ("currency", optStrVal (_detect_currency t).1),
   ("pages_processed", .intV doc.length)]

/-- `key_fields` of the contract extractor (line 330). -/
def contractKeyFields : List String :=
  ["parties", "effective_date", "contract_type"]

/-- The pre-rounding overall contract confidence (line 331). -/
def contractOverallConf (t : String) : ℚ :=
  _calculate_weighted_confidence (contractFieldConfs t) contractKeyFields

def extract_contract_data_ml (inp : PdfInput) : ExtractionResult :=
  match inp with
  | .error msg => _error_result msg
  | .ok doc =>
    let t := allTextOf doc
    if pyStrip t = "" then _error_result "No text could be extracted"
    else
      let overall := contractOverallConf t
      { success := true
        data := contractData doc
        confidence := pyRound2 overall
        field_confidences := (contractFieldConfs t).map fun kv => (kv.1, pyRound2 kv.2)
        error := none
        warnings := []
        requires_review := decide (overall < 0.60)
        processing_time := 0 }

/-!
## Financial-statement extractor (`extract_financial_statement_ml`,
lines 355–435)
-/

/-- One stored statement table (lines 368–385). -/
def statementTableVal (pg tIdx : Nat) (raw : List (List (Option String))) : PyVal :=
  let headers := storedHeaders (raw.headD [])
  .dict [("page", .intV pg),
    ("table_index", .intV tIdx),
    ("headers", .list (headers.map .str)),
    ("rows", .list ((raw.drop 1).map fun row => .dict (rowDict headers row))),
    ("row_count", .intV (raw.drop 1).length),
    ("column_count", .intV headers.length)]

/-- The summary-total scan (lines 415–419): first label whose
`_extract_labeled_amount` is truthy, with the found amount. -/
def statementSummary (t : String) : Option (String × String) :=
  firstSome (fun lb =>
      match _extract_labeled_amount t [lb] with
      | (some a, _) => if a ≠ "" then some (lb, a) else none
      | (Option.none, _) => none)
    ["total", "net income", "balance", "sum", "totalt", "resultat"]

/-- `label.replace(" ", "_")` -/
def spaceToUnderscore (s : String) : String :=
  ⟨s.toList.map fun c => if c = ' ' then '_' else c⟩

/-- `data` of the tables branch of the statement extractor (lines 404–419). -/
def statementData (doc : RawDoc) : List (String × PyVal) :=
  let t := allTextOf doc
  let tabs := docTables doc
  [("statement_type", .str (_detect_statement_type t)),
   ("period", optStrVal (_extract_period t)),
   ("currency", optStrVal (_detect_currency t).1),
   ("tables", .list (tabs.map fun x => statementTableVal x.1 x.2.1 x.2.2)),
   ("total_tables", .intV tabs.length),
   ("total_rows", .intV (tabs.map fun x => (x.2.2.drop 1).length).sum),
   ("pages_processed", .intV doc.length)] ++
  (match statementSummary t with
   | some la => [("summary_" ++ spaceToUnderscore la.1, .str la.2)]
   | Option.none => [])

def extract_financial_statement_ml (inp : PdfInput) : ExtractionResult :=
  match inp with
  | .error msg => _error_result msg
  | .ok doc =>
    let t := allTextOf doc
    let tabs := docTables doc
    if tabs.isEmpty then
      match _extract_statement_from_text t with
      | some items =>
        { success := true
          data := [("items", .list (items.map fun it =>
              .dict [("label", .str it.1), ("value", optStrVal it.2)])),
            ("item_count", .intV items.length)]
          confidence := 0.65
          field_confidences := []
          error := none
          warnings := ["No tables detected - extracted from text layout"]
          requires_review := true
          processing_time := 0 }
      | none => _error_result "No tables found in financial statement"
    else
      { success := true
        data := statementData doc
        confidence := 0.82
        field_confidences := []
        error := none
        warnings := []
        requires_review := false
        processing_time := 0 }

/-!
## Generic extractor (`extract_generic_data_ml`, lines 442–537)
-/

/-- One stored generic table (lines 457–472). -/
def genericTableVal (pg : Nat) (raw : List (List (Option String))) : PyVal :=
  let headers := storedHeaders (raw.headD [])
  .dict [("page", .intV pg),
    ("headers", .list (headers.map .str)),
    ("rows", .list ((raw.drop 1).map fun row => .dict (rowDict headers row))),
    ("row_count", .intV (raw.drop 1).length)]

/-- All date strings harvested by the four bare `DATE_PATTERNS`
(`re.findall`, no flags, one group each). -/
def genericDates (t : String) : List String :=
  DATE_PATTERNS.flatMap fun p => (reFindAll false p t.toList).map fun mc => capGroup mc.2 1

/-- `data` of the generic extractor (lines 475–515). -/
def genericData (doc : RawDoc) : List (String × PyVal) :=
  let t := allTextOf doc
  let tabs := docTables doc
  let textBlocks := doc.enum.filterMap fun ip =>
    if pyStrip (pageText ip.2) ≠ "" then
      some (PyVal.dict [("page", .intV (ip.1 + 1)), ("text", .str (pageText ip.2))])
    else Option.none
  let allDates := genericDates t
  let amounts := (reFindAll true genericAmountRE t.toList).map fun mc => String.mk mc.1
  let emails := (reFindAll false emailRE t.toList).map fun mc => String.mk mc.1
  let phones := (reFindAll false phoneRE t.toList).map fun mc => String.mk mc.1
  let urls := (reFindAll false urlRE t.toList).map fun mc => String.mk mc.1
  [("pages_processed", .intV doc.length),
   ("total_characters", .intV t.length),
   ("text_blocks", .list textBlocks),
   ("tables", .list (tabs.map fun x => genericTableVal x.1 x.2.2)),
   ("total_tables", .intV tabs.length),
   ("total_rows", .intV (tabs.map fun x => (x.2.2.drop 1).length).sum)] ++
  (if !allDates.isEmpty then
    [("dates_found", .list ((dedupKeepFirst (allDates.take 20)).map .str))] else []) ++
  (if !amounts.isEmpty then
    [("amounts_found", .list ((dedupKeepFirst ((amounts.take 20).map pyStrip)).map .str))] else []) ++
  [("currency", optStrVal (_detect_currency t).1)] ++
  (if !emails.isEmpty then
    [("emails_found", .list ((dedupKeepFirst emails).map .str))] else []) ++
  (if !phones.isEmpty then
    [("phones_found", .list ((dedupKeepFirst ((phones.take 10).map pyStrip)).map .str))] else []) ++
  (if !urls.isEmpty then
    [("urls_found", .list ((dedupKeepFirst urls).map .str))] else [])

/-- The generic confidence ladder (lines 517–521): `0.75`, raised to
`0.80` when a table was found, overridden to `0.50` when the gathered text
is under 100 characters. -/
def genericConfidence (doc : RawDoc) : ℚ :=
  let t := allTextOf doc
  let c1 : ℚ := 0.75
  let c2 : ℚ := if !(docTables doc).isEmpty then 0.80 else c1
  if t.length < 100 then 0.50 else c2

def extract_generic_data_ml (inp : PdfInput) : ExtractionResult :=
  match inp with
  | .error msg => _error_result msg
  | .ok doc =>
    { success := true
      data := genericData doc
      confidence := genericConfidence doc
      field_confidences := []
      error := none
      warnings := ["Generic extraction — specific document type may yield better results"]
      requires_review := false
      processing_time := 0 }

/-!
# Theorems

One theorem per claim of the specification, preceded by the helper lemmas
they share.
-/

/-- The spec's weight function: 2.0 on key fields, 1.0 elsewhere. -/
def specWeight (key_fields : List String) (f : String) : ℚ :=
  if key_fields.contains f then 2 else 1

theorem specWeight_pos (ks : List String) (f : String) : 0 < specWeight ks f := by
  unfold specWeight
  split <;> norm_num

theorem total_weight_pos (fcs : List (String × ℚ)) (ks : List String) (h : fcs ≠ []) :
    0 < (fcs.map fun fc => specWeight ks fc.1).sum := by
  match fcs with
  | [] => exact absurd rfl h
  | fc :: rest =>
    have h1 : 0 < specWeight ks fc.1 := specWeight_pos ks fc.1
    have h2 : 0 ≤ (rest.map fun fc => specWeight ks fc.1).sum := by
      apply List.sum_nonneg
      intro x hx
      obtain ⟨y, _, rfl⟩ := List.mem_map.mp hx
      exact le_of_lt (specWeight_pos ks y.1)
    simpa using add_pos_of_pos_of_nonneg h1 h2

theorem weighted_two_equal (a b : String) (c : ℚ) (ks : List String) :
    _calculate_weighted_confidence [(a, c), (b, c)] ks = c := by
  simp only [_calculate_weighted_confidence, List.isEmpty_cons, List.map_cons,
    List.map_nil, List.sum_cons, List.sum_nil, Bool.false_eq_true, if_false]
  rw [if_pos (by split <;> split <;> norm_num)]
  split <;> split <;> (field_simp; ring)

/-- C5: the aggregator is the weighted mean with weight 2.0 on key fields
and 1.0 elsewhere, returns 0.0 on an empty map, and on a two-field map
with equal confidences moving either field into the key set does not
change the result. -/
theorem aggregator_weighted_mean :
    (∀ ks : List String, _calculate_weighted_confidence [] ks = 0) ∧
    (∀ (fcs : List (String × ℚ)) (ks : List String), fcs ≠ [] →
      _calculate_weighted_confidence fcs ks =
        (fcs.map fun fc => fc.2 * specWeight ks fc.1).sum /
          (fcs.map fun fc => specWeight ks fc.1).sum) ∧
    (∀ (a b : String) (c : ℚ) (ks : List String),
      _calculate_weighted_confidence [(a, c), (b, c)] (a :: ks)
          = _calculate_weighted_confidence [(a, c), (b, c)] ks ∧
        _calculate_weighted_confidence [(a, c), (b, c)] (b :: ks)
          = _calculate_weighted_confidence [(a, c), (b, c)] ks) := by
  refine ⟨fun ks => rfl, ?_, ?_⟩
  · intro fcs ks h
    have hw := total_weight_pos fcs ks h
    simp only [specWeight] at hw
    simp only [_calculate_weighted_confidence, specWeight]
    rw [if_neg (by simpa using h), if_pos hw]
  · intro a b c ks
    rw [weighted_two_equal, weighted_two_equal, weighted_two_equal]
    exact ⟨rfl, rfl⟩

/-- Witness for C5: the weighted-mean shape at a concrete non-empty map. -/
theorem aggregator_weighted_mean_witness :
    _calculate_weighted_confidence [("a", 0.7), ("b", 0.3)] ["a"] =
      ([("a", (0.7 : ℚ)), ("b", 0.3)].map fun fc => fc.2 * specWeight ["a"] fc.1).sum /
        ([("a", (0.7 : ℚ)), ("b", 0.3)].map fun fc => specWeight ["a"] fc.1).sum :=
  aggregator_weighted_mean.2.1 [("a", 0.7), ("b", 0.3)] ["a"] (by simp)

/-- C9: an exception while reading the document is converted by every
extractor into the standard error result — `success == false`,
`confidence == 0.0`, `requires_review == false`, empty data, and the
exception's message as `error`; being total Lean functions, the extractors
propagate no exception. -/
theorem extractors_catch_read_errors (msg : String) (uft : Bool) :
    extract_invoice_data_ml (.error msg) uft = _error_result msg ∧
    extract_contract_data_ml (.error msg) = _error_result msg ∧
    extract_financial_statement_ml (.error msg) = _error_result msg ∧
    extract_generic_data_ml (.error msg) = _error_result msg ∧
    (_error_result msg).success = false ∧
    (_error_result msg).confidence = 0 ∧
    (_error_result msg).requires_review = false ∧
    (_error_result msg).data = [] ∧
    (_error_result msg).error = some msg ∧
    (_error_result msg).field_confidences = [] ∧
    (_error_result msg).warnings = [] :=
  ⟨rfl, rfl, rfl, rfl, rfl, rfl, rfl, rfl, rfl, rfl, rfl⟩

/-!
## Claims about `_normalize_amount` (C2, C3)
-/

/-- A canonical numeric string as produced by the normalizer's success
path: only digits and `.`, at most one `.`, at least one digit (exactly
the digit/dot strings Python's `float` accepts). -/
def isCanonicalNum (s : String) : Bool :=
  s.toList.all (fun c => isPyDigit c || c = '.') && pyFloatAccepts s.toList

/-- After the leading digit run of `^\d+\.\d{2}$`: exactly `.` then two
digits. -/
def canonTail : List Char → Bool
  | [c, a, b] => c = '.' && isPyDigit a && isPyDigit b
  | _ => false

/-- `^\d+\.\d{2}$`: one or more digits, a dot, exactly two digits.  (The
leading digit run of the anchored regex is necessarily the maximal one.) -/
def canonAmountPat (s : String) : Bool :=
  !(s.toList.takeWhile isPyDigit).isEmpty &&
    canonTail (s.toList.drop (s.toList.takeWhile isPyDigit).length)

/-- C2 counterexample: on the empty string the normalizer returns Python
`None` — neither a canonical numeric string nor the trimmed original
string, refuting "for every input string ... returns either a canonical
numeric string ... or the trimmed original string". -/
theorem normalize_amount_empty_counterexample : _normalize_amount "" = none := rfl

/-- C2 (amended): for every non-empty input the normalizer returns a
string that is either canonical (digits, at most one `.`, at least one
digit) or the trimmed original; the spec's five test cases hold; the empty
string alone returns `None`. -/
theorem normalize_amount_total_amended :
    (∀ raw : String, raw ≠ "" → ∃ r, _normalize_amount raw = some r ∧
      (isCanonicalNum r = true ∨ r = pyStrip raw)) ∧
    _normalize_amount "1.234,56" = some "1234.56" ∧
    _normalize_amount "1,234.56" = some "1234.56" ∧
    _normalize_amount "1234,56" = some "1234.56" ∧
    _normalize_amount "1 234.56" = some "1234.56" ∧
    _normalize_amount "abc" = some "abc" ∧
    _normalize_amount "" = none := by
  refine ⟨?_, rfl, rfl, rfl, rfl, rfl, rfl⟩
  intro raw h
  unfold _normalize_amount
  rw [if_neg h]
  by_cases hf : pyFloatAccepts (normalizeCleaned raw) = true
  · refine ⟨⟨normalizeCleaned raw⟩, by rw [if_pos hf], Or.inl ?_⟩
    have hall : (normalizeCleaned raw).all (fun c => isPyDigit c || c = '.') = true := by
      apply List.all_eq_true.mpr
      intro x hx
      simp only [normalizeCleaned] at hx
      exact (List.mem_filter.mp hx).2
    show ((normalizeCleaned raw).all (fun c => isPyDigit c || c = '.') &&
      pyFloatAccepts (normalizeCleaned raw)) = true
    rw [hall, hf]
    rfl
  · refine ⟨pyStrip raw, ?_, Or.inr rfl⟩
    rw [if_neg hf]

/-- Witness for C2 at the concrete input `"abc"`. -/
theorem normalize_amount_total_amended_witness :
    ∃ r, _normalize_amount "abc" = some r ∧
      (isCanonicalNum r = true ∨ r = pyStrip "abc") :=
  normalize_amount_total_amended.1 "abc" (by decide)

theorem digitDot_not_space (c : Char) (h : (isPyDigit c || c = '.') = true) :
    isPySpace c = false := by
  cases hs : isPySpace c
  · rfl
  · exfalso
    unfold isPySpace at hs
    simp only [Bool.or_eq_true, decide_eq_true_eq] at hs
    obtain ((((h1 | h1) | h1) | h1) | h1) | h1 := hs <;> subst h1 <;>
      exact absurd h (by decide)

theorem dropWhile_eq_self_of_false {p : Char → Bool} {l : List Char}
    (h : ∀ c ∈ l, p c = false) : l.dropWhile p = l := by
  cases l with
  | nil => rfl
  | cons c r =>
    rw [List.dropWhile_cons]
    simp [h c (List.mem_cons_self c r)]

theorem pyStripList_eq_self {l : List Char} (h : ∀ c ∈ l, isPySpace c = false) :
    pyStripList l = l := by
  unfold pyStripList
  rw [dropWhile_eq_self_of_false h]
  rw [dropWhile_eq_self_of_false (fun c hc => h c (List.mem_reverse.mp hc))]
  exact List.reverse_reverse l

theorem rmDigitSpacesF_eq_self {l : List Char} (f : Nat)
    (h : ∀ c ∈ l, isPySpace c = false) : rmDigitSpacesF f l = l := by
  induction f generalizing l with
  | zero => rfl
  | succ f ih =>
    cases l with
    | nil => rfl
    | cons c r =>
      have hr : ∀ x ∈ r, isPySpace x = false := fun x hx => h x (List.mem_cons_of_mem c hx)
      have hdw : r.dropWhile isPySpace = r := dropWhile_eq_self_of_false hr
      unfold rmDigitSpacesF
      rw [hdw, ih hr]
      split
      · split <;> rfl
      · rfl

theorem rmDigitSpaces_eq_self {l : List Char} (h : ∀ c ∈ l, isPySpace c = false) :
    rmDigitSpaces l = l :=
  rmDigitSpacesF_eq_self _ h

theorem takeWhile_append_eq (p : Char → Bool) (ds rest : List Char)
    (h1 : ∀ c ∈ ds, p c = true)
    (h2 : rest.head?.elim True fun r => p r = false) :
    (ds ++ rest).takeWhile p = ds := by
  induction ds with
  | nil =>
    cases rest with
    | nil => rfl
    | cons r rs =>
      simp only [Option.elim, List.head?] at h2
      simp [List.takeWhile_cons, h2]
  | cons d ds ih =>
    have hd : p d = true := h1 d (List.mem_cons_self d ds)
    simp only [List.cons_append, List.takeWhile_cons, hd, if_true]
    rw [ih (fun c hc => h1 c (List.mem_cons_of_mem d hc))]

theorem contains_false_of_all {l : List Char} {x : Char}
    (h : ∀ c ∈ l, c ≠ x) : l.contains x = false := by
  induction l with
  | nil => rfl
  | cons c r ih =>
    simp only [List.contains_cons, Bool.or_eq_false_iff]
    constructor
    · exact beq_eq_false_iff_ne.mpr fun he => h c (List.mem_cons_self c r) he.symm
    · exact ih fun y hy => h y (List.mem_cons_of_mem c hy)

theorem canonTail_spec {t : List Char} (h : canonTail t = true) :
    ∃ a b, t = ['.', a, b] ∧ isPyDigit a = true ∧ isPyDigit b = true := by
  cases t with
  | nil => exact absurd h (by simp [canonTail])
  | cons c t1 =>
    cases t1 with
    | nil => exact absurd h (by simp [canonTail])
    | cons a t2 =>
      cases t2 with
      | nil => exact absurd h (by simp [canonTail])
      | cons b t3 =>
        cases t3 with
        | nil =>
          simp only [canonTail, Bool.and_eq_true, decide_eq_true_eq] at h
          exact ⟨a, b, by rw [h.1.1], h.1.2, h.2⟩
        | cons d t4 => exact absurd h (by simp [canonTail])

/-- Any list equals its `takeWhile` followed by the matching `drop`. -/
theorem takeWhile_drop_decomp (p : Char → Bool) (l : List Char) :
    l = l.takeWhile p ++ l.drop (l.takeWhile p).length := by
  induction l with
  | nil => rfl
  | cons c r ih =>
    by_cases hc : p c
    · simp only [List.takeWhile_cons, hc, if_true, List.length_cons,
        List.drop_succ_cons, List.cons_append]
      exact congrArg (c :: ·) ih
    · simp [List.takeWhile_cons, hc]

theorem digitDot_ne_comma (c : Char) (h : (isPyDigit c || c = '.') = true) :
    c ≠ ',' := by
  intro hc
  subst hc
  exact absurd h (by decide)

theorem digit_not_dot (c : Char) (h : isPyDigit c = true) :
    (decide (c = '.')) = false := by
  cases hd : decide (c = '.')
  · rfl
  · have hc := of_decide_eq_true hd
    subst hc
    exact absurd h (by decide)

/-- C3: the normalizer is the identity on every canonical amount string
matching `^\d+\.\d{2}$`. -/
theorem normalize_amount_idempotent (s : String)
    (h : canonAmountPat s = true) : _normalize_amount s = some s := by
  obtain ⟨l⟩ := s
  have hTL : (String.mk l).toList = l := rfl
  unfold canonAmountPat at h
  rw [hTL] at h
  simp only [Bool.and_eq_true] at h
  obtain ⟨hne, htail⟩ := h
  obtain ⟨a, b, hdrop, ha, hb⟩ := canonTail_spec htail
  have hdsall : ∀ c ∈ l.takeWhile isPyDigit, isPyDigit c = true :=
    fun c hc => List.mem_takeWhile_imp hc
  have hl : l = l.takeWhile isPyDigit ++ ['.', a, b] := by
    conv_lhs => rw [takeWhile_drop_decomp isPyDigit l]
    rw [hdrop]
  set ds := l.takeWhile isPyDigit with hds_def
  -- every character of the string is a digit or the dot
  have hdd : ∀ c ∈ l, (isPyDigit c || c = '.') = true := by
    intro c hc
    rw [hl] at hc
    rcases List.mem_append.mp hc with hc | hc
    · simp [hdsall c hc]
    · rcases hc with _ | ⟨_, hc⟩
      · simp
      · rcases hc with _ | ⟨_, hc⟩
        · simp [ha]
        · rcases hc with _ | ⟨_, hc⟩
          · simp [hb]
          · cases hc
  have hns : ∀ c ∈ l, isPySpace c = false := fun c hc => digitDot_not_space c (hdd c hc)
  -- the two anchored regional formats fail: the tail after the digit run
  -- starts with '.' and has no room for a `(\.\d{3})+` group
  have htake : (ds ++ ['.', a, b]).takeWhile isPyDigit = ds := by
    apply takeWhile_append_eq isPyDigit ds ['.', a, b] hdsall
    simp only [List.head?, Option.elim]
    rfl
  have heuro : euroFormat l = false := by
    rw [hl]
    simp only [euroFormat]
    rw [htake, List.drop_left]
    have h3 : euroTail ['.', a, b] = false := rfl
    rw [h3, Bool.and_false]
  have hus : usFormat l = false := by
    rw [hl]
    simp only [usFormat]
    rw [htake, List.drop_left]
    have h3 : usTail ['.', a, b] = false := rfl
    rw [h3, Bool.and_false]
  have hcomma : l.contains ',' = false :=
    contains_false_of_all fun c hc => digitDot_ne_comma c (hdd c hc)
  have hclean : normalizeCleaned (String.mk l) = l := by
    simp only [normalizeCleaned, hTL]
    rw [pyStripList_eq_self hns, rmDigitSpaces_eq_self hns, heuro, hus, hcomma]
    simp only [Bool.false_and, if_false]
    exact List.filter_eq_self.mpr hdd
  have hfloat : pyFloatAccepts l = true := by
    unfold pyFloatAccepts
    have hfilter : l.filter (fun c => c = '.') = ['.'] := by
      rw [hl, List.filter_append]
      have h1 : ds.filter (fun c => decide (c = '.')) = [] := by
        apply List.filter_eq_nil_iff.mpr
        intro c hc
        simp [digit_not_dot c (hdsall c hc)]
      have h2 : ['.', a, b].filter (fun c => decide (c = '.')) = ['.'] := by
        simp only [List.filter_cons, List.filter_nil, digit_not_dot a ha,
          digit_not_dot b hb]
        simp
      rw [h1, h2]
      rfl
    rw [hfilter]
    have hany : l.any isPyDigit = true := by
      apply List.any_eq_true.mpr
      exact ⟨a, by rw [hl]; simp, ha⟩
    rw [hany]
    rfl
  have hnonempty : String.mk l ≠ "" := by
    intro he
    have : l = [] := congrArg String.toList he
    rw [hl] at this
    exact absurd this (by simp)
  unfold _normalize_amount
  rw [if_neg hnonempty, hclean, if_pos hfloat]

/-- Witness for C3 at the concrete canonical amount `"1234.56"`. -/
theorem normalize_amount_idempotent_witness :
    _normalize_amount "1234.56" = some "1234.56" :=
  normalize_amount_idempotent "1234.56" (by decide)

/-!
## Claim C4: confidence/value coupling of the primitives
-/

theorem firstSome_eq_some {α β : Type} {f : α → Option β} {l : List α} {b : β}
    (h : firstSome f l = some b) : ∃ a ∈ l, f a = some b := by
  induction l with
  | nil => exact absurd h (by simp [firstSome])
  | cons x xs ih =>
    unfold firstSome at h
    cases hfx : f x with
    | some b1 =>
      rw [hfx] at h
      exact ⟨x, List.mem_cons_self x xs, by rw [hfx, Option.some_inj.mp h]⟩
    | none =>
      rw [hfx] at h
      obtain ⟨a, ha, hfa⟩ := ih h
      exact ⟨a, List.mem_cons_of_mem x ha, hfa⟩

theorem pair_some_iff {v : String} {c : ℚ} (hc : c ≠ 0) :
    ((some v, c) : Option String × ℚ).1 = none ↔
      ((some v, c) : Option String × ℚ).2 = 0 :=
  iff_of_false (by simp) hc

theorem pair_none_iff :
    ((none, 0) : Option String × ℚ).1 = none ↔
      ((none, 0) : Option String × ℚ).2 = 0 :=
  iff_of_true rfl rfl

theorem pair_ite_iff {c : Prop} [Decidable c] {v : String} {q : ℚ} (hq : q ≠ 0) :
    (if c then ((some v, q) : Option String × ℚ) else (none, 0)).1 = none ↔
      (if c then ((some v, q) : Option String × ℚ) else (none, 0)).2 = 0 := by
  by_cases h : c
  · rw [if_pos h]
    exact pair_some_iff hq
  · rw [if_neg h]
    exact pair_none_iff

/-- C4 counterexample: at the empty text the contract-parties extractor
returns confidence `0.0` with the value `[]` — a non-`None` value (the
function returns a Python list and never `None`), refuting "value is None
if and only if confidence equals 0.0" for the contract-parties extractor. -/
theorem contract_parties_value_counterexample :
    _extract_contract_parties "" = ([], 0) := rfl

/-- C4 (amended): for the labeled-date, labeled-amount, labeled-value,
entity-name, address, tax-id, tax-rate, payment-terms, bank-info and
currency primitives, the value is `None` iff the confidence is `0.0`; the
contract-parties extractor returns a list, never `None` — for it the list
is empty iff the confidence is `0.0`. -/
theorem primitives_value_confidence_coupling :
    (∀ t ls, (_extract_labeled_date t ls).1 = none ↔ (_extract_labeled_date t ls).2 = 0) ∧
    (∀ t ls, (_extract_labeled_amount t ls).1 = none ↔ (_extract_labeled_amount t ls).2 = 0) ∧
    (∀ t ls, (_extract_labeled_value t ls).1 = none ↔ (_extract_labeled_value t ls).2 = 0) ∧
    (∀ t ls, (_extract_entity_name t ls).1 = none ↔ (_extract_entity_name t ls).2 = 0) ∧
    (∀ t et, (_extract_address t et).1 = none ↔ (_extract_address t et).2 = 0) ∧
    (∀ t ls, (_extract_tax_id t ls).1 = none ↔ (_extract_tax_id t ls).2 = 0) ∧
    (∀ t, (_extract_tax_rate t).1 = none ↔ (_extract_tax_rate t).2 = 0) ∧
    (∀ t, (_extract_payment_terms t).1 = none ↔ (_extract_payment_terms t).2 = 0) ∧
    (∀ t, (_extract_bank_info t).1 = none ↔ (_extract_bank_info t).2 = 0) ∧
    (∀ t, (_detect_currency t).1 = none ↔ (_detect_currency t).2 = 0) ∧
    (∀ t, (_extract_contract_parties t).1 = [] ↔ (_extract_contract_parties t).2 = 0) := by
  refine ⟨?_, ?_, ?_, ?_, ?_, ?_, ?_, ?_, ?_, ?_, ?_⟩
  · intro t ls
    unfold _extract_labeled_date
    cases hE : firstSome (fun lb => firstSome
        (fun dp => (searchGrp true (labeledDateRE lb dp) t 1).map pyStrip) DATE_PATTERNS) ls with
    | some v => exact pair_some_iff (by norm_num)
    | none =>
      cases hF : firstSome (fun lb =>
          match listFindSub (pyLower lb).toList (pyLower t).toList with
          | none => none
          | some pos => firstSome (fun dp =>
              (reSearch false dp ((t.toList.drop pos).take 100)).map fun m =>
                pyStrip (capGroup m.2.2 1)) DATE_PATTERNS) ls with
      | some v => exact pair_some_iff (by norm_num)
      | none => exact pair_none_iff
  · intro t ls
    unfold _extract_labeled_amount
    cases hE : firstSome (fun lb => (searchGrp true (labeledAmountRE lb) t 1).bind fun g =>
        match _normalize_amount (pyStrip g) with
        | some n => if n ≠ "" then some n else none
        | none => none) ls with
    | some v => exact pair_some_iff (by norm_num)
    | none =>
      cases hF : firstSome (fun lb =>
          match listFindSub (pyLower lb).toList (pyLower t).toList with
          | none => none
          | some pos =>
            match (((reFindAll true amountFallbackRE ((t.toList.drop pos).take 80)).map
                fun mc => capGroup mc.2 1)).getLast? with
            | none => none
            | some raw =>
              match _normalize_amount raw with
              | some n => if n ≠ "" then some n else none
              | none => none) ls with
      | some v => exact pair_some_iff (by norm_num)
      | none => exact pair_none_iff
  · intro t ls
    unfold _extract_labeled_value
    cases hE : firstSome (fun lb => (searchGrp true (labeledValueRE lb) t 1).bind fun g =>
        if pyRstripDot (pyStrip g) ≠ "" && (pyRstripDot (pyStrip g)).length > 1 then
          some (pyRstripDot (pyStrip g))
        else none) ls with
    | some v => exact pair_some_iff (by norm_num)
    | none => exact pair_none_iff
  · intro t ls
    unfold _extract_entity_name
    cases hE : firstSome (fun lb => (searchGrp true (entityNameRE lb) t 1).bind fun g =>
        if entitySuffixSub (pyStrip g) ≠ "" && (entitySuffixSub (pyStrip g)).length > 1 &&
            !pyIsDigitStr (entitySuffixSub (pyStrip g)) then
          some (pyStrip (entitySuffixSub (pyStrip g)))
        else none) ls with
    | some v => exact pair_some_iff (by norm_num)
    | none => exact pair_ite_iff (by norm_num)
  · intro t et
    unfold _extract_address
    cases hE : searchGrp true addressRE t 1 with
    | some g => exact pair_some_iff (by norm_num)
    | none => exact pair_none_iff
  · intro t ls
    unfold _extract_tax_id
    cases hE : firstSome (fun lb => (searchGrp true (taxIdRE lb) t 1).map pyStrip) ls with
    | some v => exact pair_some_iff (by norm_num)
    | none => exact pair_none_iff
  · intro t
    unfold _extract_tax_rate
    cases hE : firstSome (fun p => (searchGrp true p t 1).map fun g =>
        String.mk (g.toList.map fun c => if c = ',' then '.' else c) ++ "%") taxRatePatterns with
    | some v => exact pair_some_iff (by norm_num)
    | none => exact pair_none_iff
  · intro t
    unfold _extract_payment_terms
    cases hE : firstSome (fun pc => (searchGrp true pc.1 t 1).map fun g => (pyStrip g, pc.2))
        paymentTermsPatterns with
    | some vc =>
      obtain ⟨pc, hmem, hf⟩ := firstSome_eq_some hE
      have h2 : vc.2 = pc.2 := by
        cases hs : searchGrp true pc.1 t 1 with
        | none => rw [hs] at hf; exact absurd hf (by simp)
        | some g =>
          rw [hs] at hf
          have h3 : some (pyStrip g, pc.2) = some vc := hf
          exact (congrArg Prod.snd (Option.some_inj.mp h3)).symm
      have hnz : pc.2 ≠ 0 := by
        simp only [paymentTermsPatterns, List.mem_cons, List.not_mem_nil, or_false] at hmem
        rcases hmem with h | h | h | h <;> rw [h] <;> norm_num
      exact pair_some_iff (h2 ▸ hnz)
    | none => exact pair_none_iff
  · intro t
    unfold _extract_bank_info
    cases hE : firstSome (fun pc => (searchGrp true pc.1 t 1).map fun g => (pyStrip g, pc.2))
        bankInfoPatterns with
    | some vc =>
      obtain ⟨pc, hmem, hf⟩ := firstSome_eq_some hE
      have h2 : vc.2 = pc.2 := by
        cases hs : searchGrp true pc.1 t 1 with
        | none => rw [hs] at hf; exact absurd hf (by simp)
        | some g =>
          rw [hs] at hf
          have h3 : some (pyStrip g, pc.2) = some vc := hf
          exact (congrArg Prod.snd (Option.some_inj.mp h3)).symm
      have hnz : pc.2 ≠ 0 := by
        simp only [bankInfoPatterns, List.mem_cons, List.not_mem_nil, or_false] at hmem
        rcases hmem with h | h | h <;> rw [h] <;> norm_num
      exact pair_some_iff (h2 ▸ hnz)
    | none => exact pair_none_iff
  · intro t
    unfold _detect_currency
    cases hM : firstMaxKey (currencyCountsOf t) with
    | some best => exact pair_some_iff (by norm_num)
    | none => exact pair_none_iff
  · intro t
    unfold _extract_contract_parties
    cases hE : reSearch true betweenRE t.toList with
    | some m => exact iff_of_false (by simp) (by norm_num)
    | none =>
      cases hL : (reFindAll true partyRE t.toList).map fun mc => capGroup mc.2 1 with
      | nil => exact iff_of_true rfl rfl
      | cons m0 rest => exact iff_of_false (by simp) (by norm_num)

/-!
## Claim C1: the requires-review flag
-/

/-- C1 counterexample: the generic extractor on a one-page document with
no text succeeds with confidence 0.50 < 0.60 yet `requires_review` is
false, refuting `requires_review == (success and confidence < 0.60)`. -/
theorem generic_requires_review_counterexample :
    (extract_generic_data_ml (.ok [⟨some "", []⟩])).success = true ∧
    (extract_generic_data_ml (.ok [⟨some "", []⟩])).confidence < 0.60 ∧
    (extract_generic_data_ml (.ok [⟨some "", []⟩])).requires_review = false := by
  refine ⟨rfl, ?_, rfl⟩
  have h : (extract_generic_data_ml (.ok [⟨some "", []⟩])).confidence = 0.50 := rfl
  rw [h]
  norm_num

/-- C1 (amended): the invoice and contract extractors set
`requires_review` iff they succeed and the pre-rounding overall confidence
is below 0.60; the statement extractor hard-codes the flag — true exactly
on its text-layout fallback (confidence 0.65), false with tables
(confidence 0.82); the generic extractor always reports
`requires_review = false`; error results carry `requires_review = false`. -/
theorem requires_review_flag_amended (d : RawDoc) (uft : Bool) (msg : String) :
    ((extract_invoice_data_ml (.ok d) uft).requires_review
      = ((extract_invoice_data_ml (.ok d) uft).success &&
          decide (invoiceOverallConf (allTextOf d) < 0.60))) ∧
    ((extract_contract_data_ml (.ok d)).requires_review
      = ((extract_contract_data_ml (.ok d)).success &&
          decide (contractOverallConf (allTextOf d) < 0.60))) ∧
    ((extract_financial_statement_ml (.ok d)).requires_review
      = ((extract_financial_statement_ml (.ok d)).success &&
          decide ((extract_financial_statement_ml (.ok d)).confidence = 0.65))) ∧
    ((extract_generic_data_ml (.ok d)).requires_review = false) ∧
    ((extract_invoice_data_ml (.error msg) uft).requires_review = false) ∧
    ((extract_contract_data_ml (.error msg)).requires_review = false) ∧
    ((extract_financial_statement_ml (.error msg)).requires_review = false) ∧
    ((extract_generic_data_ml (.error msg)).requires_review = false) := by
  refine ⟨?_, ?_, ?_, rfl, rfl, rfl, rfl, rfl⟩
  · simp only [extract_invoice_data_ml]
    split
    · rfl
    · rfl
  · simp only [extract_contract_data_ml]
    split
    · rfl
    · rfl
  · simp only [extract_financial_statement_ml]
    split
    · split
      · simp
      · rfl
    · have h65 : ((0.82 : ℚ) = 0.65) = False := by norm_num
      simp [h65]

/-!
## Claim C8: empty-document handling
-/

/-- C8 counterexample: a one-page document with no text makes the generic
extractor return success (no error), refuting "each document-type
extractor returns an explicit error result" for empty documents. -/
theorem generic_empty_text_success_counterexample :
    pyStrip (allTextOf [⟨some "", []⟩]) = "" ∧
    (extract_generic_data_ml (.ok [⟨some "", []⟩])).success = true ∧
    (extract_generic_data_ml (.ok [⟨some "", []⟩])).error = none :=
  ⟨rfl, rfl, rfl⟩

theorem allText_fold_emptyPages (d : RawDoc) (acc : String)
    (h : ∀ p ∈ d, pageText p = "") :
    (d.foldl (fun a p => a ++ pageText p ++ "\n") acc).toList
      = acc.toList ++ List.replicate d.length '\n' := by
  induction d generalizing acc with
  | nil => simp
  | cons p rest ih =>
    simp only [List.foldl_cons]
    rw [h p (List.mem_cons_self p rest)]
    rw [ih (acc ++ "" ++ "\n") (fun q hq => h q (List.mem_cons_of_mem p hq))]
    simp only [List.length_cons, List.replicate_succ]
    rw [show (acc ++ "" ++ "\n").toList = acc.toList ++ ['\n'] by
      simp [String.toList, String.data_append]]
    simp

theorem splitLines_replicate_newlines (n : Nat) :
    splitLinesList (List.replicate n '\n') = List.replicate (n + 1) [] := by
  induction n with
  | zero => rfl
  | succ m ih =>
    rw [List.replicate_succ]
    simp only [splitLinesList, ih]
    rw [List.replicate_succ]
    simp [List.replicate_succ]

theorem stmt_text_parse_empty (d : RawDoc) (h : ∀ p ∈ d, pageText p = "") :
    _extract_statement_from_text (allTextOf d) = none := by
  have htext : (allTextOf d).toList = List.replicate d.length '\n' :=
    allText_fold_emptyPages d "" h
  unfold _extract_statement_from_text pySplitLines
  rw [htext, splitLines_replicate_newlines]
  have hmap : ∀ m : Nat, ((List.replicate m ([] : List Char)).map
      (fun l => String.mk l)).filterMap stmtLineParse = [] := by
    intro m
    induction m with
    | zero => rfl
    | succ k ihk =>
      rw [List.replicate_succ]
      simp only [List.map_cons, List.filterMap_cons]
      rw [show stmtLineParse (String.mk []) = none from rfl]
      exact ihk
  rw [hmap]
  rfl

/-- C8 (amended): on a document with no extractable text the invoice and
contract extractors return their explicit "No text could be extracted"
error results; the statement extractor errors only when the document also
yields no tables (with a "No tables found" message) and succeeds at
confidence 0.82 whenever tables exist, even with empty text; the generic
extractor never errors on an empty document and reports success. -/
theorem empty_text_handling_amended (d : RawDoc) (uft : Bool) :
    (pyStrip (allTextOf d) = "" →
      extract_invoice_data_ml (.ok d) uft
        = _error_result "No text could be extracted from this PDF") ∧
    (pyStrip (allTextOf d) = "" →
      extract_contract_data_ml (.ok d) = _error_result "No text could be extracted") ∧
    ((∀ p ∈ d, pageText p = "") → docTables d = [] →
      extract_financial_statement_ml (.ok d)
        = _error_result "No tables found in financial statement") ∧
    (docTables d ≠ [] →
      (extract_financial_statement_ml (.ok d)).success = true ∧
      (extract_financial_statement_ml (.ok d)).confidence = 0.82 ∧
      (extract_financial_statement_ml (.ok d)).error = none) ∧
    ((extract_generic_data_ml (.ok d)).success = true ∧
      (extract_generic_data_ml (.ok d)).error = none) := by
  refine ⟨?_, ?_, ?_, ?_, rfl, rfl⟩
  · intro h
    simp only [extract_invoice_data_ml]
    rw [if_pos h]
  · intro h
    simp only [extract_contract_data_ml]
    rw [if_pos h]
  · intro h1 h2
    simp only [extract_financial_statement_ml]
    rw [h2, stmt_text_parse_empty d h1]
    rfl
  · intro h
    simp only [extract_financial_statement_ml]
    rw [if_neg (by simpa using h)]
    exact ⟨rfl, rfl, rfl⟩

/-- Witness for C8 at concrete documents: a one-page empty document for
the error paths and a document with one table for the statement success
path. -/
theorem empty_text_handling_amended_witness :
    extract_invoice_data_ml (.ok [⟨some "", []⟩]) false
        = _error_result "No text could be extracted from this PDF" ∧
    extract_contract_data_ml (.ok [⟨some "", []⟩])
        = _error_result "No text could be extracted" ∧
    extract_financial_statement_ml (.ok [⟨some "", []⟩])
        = _error_result "No tables found in financial statement" ∧
    (extract_financial_statement_ml
        (.ok [⟨some "", [[[some "A"], [some "1"]]]⟩])).confidence = 0.82 := by
  have h1 := empty_text_handling_amended [⟨some "", []⟩] false
  have h2 := empty_text_handling_amended [⟨some "", [[[some "A"], [some "1"]]]⟩] false
  refine ⟨h1.1 rfl, h1.2.1 rfl, ?_, ?_⟩
  · refine h1.2.2.1 ?_ rfl
    intro p hp
    rw [List.mem_singleton.mp hp]
    rfl
  · exact (h2.2.2.2.1 (by decide)).2.1

/-!
## Claim C7: the document-type classifier
-/

theorem startsWith_mem {pat hay : List Char} (h : listStartsWith pat hay = true) :
    ∀ c ∈ pat, c ∈ hay := by
  induction pat generalizing hay with
  | nil => intro c hc; cases hc
  | cons p ps ih =>
    cases hay with
    | nil => exact absurd h (by simp [listStartsWith])
    | cons x hs =>
      simp only [listStartsWith, Bool.and_eq_true, decide_eq_true_eq] at h
      intro c hc
      rcases List.mem_cons.mp hc with hc | hc
      · rw [hc, h.1]; exact List.mem_cons_self x hs
      · exact List.mem_cons_of_mem x (ih h.2 c hc)

theorem hasSub_mem {pat hay : List Char} (h : listHasSub pat hay = true) :
    ∀ c ∈ pat, c ∈ hay := by
  induction hay with
  | nil => exact startsWith_mem h
  | cons x hs ih =>
    simp only [listHasSub, Bool.or_eq_true] at h
    rcases h with h | h
    · exact startsWith_mem h
    · exact fun c hc => List.mem_cons_of_mem x (ih h c hc)

theorem no_keyword_hit_of_all_space (kws : List String) (t : String)
    (hk : kws.all (fun kw => kw.toList.any fun c => !isPySpace c) = true)
    (ht : ∀ c ∈ t.toList, isPySpace c = true) :
    kws.any (fun w => strHasSub t w) = false := by
  cases hA : kws.any (fun w => strHasSub t w) with
  | false => rfl
  | true =>
    exfalso
    obtain ⟨w, hw, hsub⟩ := List.any_eq_true.mp hA
    obtain ⟨c0, hc0, hns⟩ := List.any_eq_true.mp (List.all_eq_true.mp hk w hw)
    have hc0t : c0 ∈ t.toList := hasSub_mem hsub c0 hc0
    rw [ht c0 hc0t] at hns
    exact absurd hns (by decide)

theorem strip_empty_all_space : ∀ (l : List Char), pyStripList l = [] →
    ∀ c ∈ l, isPySpace c = true := by
  intro l
  induction l with
  | nil => intro _ c hc; cases hc
  | cons x r ih =>
    intro h c hc
    cases hx : isPySpace x with
    | true =>
      have hstep : pyStripList (x :: r) = pyStripList r := by
        unfold pyStripList
        rw [List.dropWhile_cons]
        simp [hx]
      rcases List.mem_cons.mp hc with hc | hc
      · rw [hc]; exact hx
      · exact ih (by rw [← hstep]; exact h) c hc
    | false =>
      exfalso
      have hdw : (x :: r).dropWhile isPySpace = x :: r := by
        rw [List.dropWhile_cons]
        simp [hx]
      unfold pyStripList at h
      rw [hdw] at h
      have h2 : ((x :: r).reverse.dropWhile isPySpace) = [] := by
        have := congrArg List.reverse h
        simpa using this
      have h3 : ∀ y ∈ (x :: r).reverse, isPySpace y = true := by
        intro y hy
        have := List.dropWhile_eq_nil_iff.mp h2
        simpa using this y (by simpa using hy)
      have hx2 := h3 x (by simp)
      rw [hx] at hx2
      exact absurd hx2 (by decide)

theorem space_lower_fixed (c : Char) (h : isPySpace c = true) : pyLowerChar c = c := by
  unfold isPySpace at h
  simp only [Bool.or_eq_true, decide_eq_true_eq] at h
  obtain ((((h1 | h1) | h1) | h1) | h1) | h1 := h <;> subst h1 <;> rfl

theorem map_eq_self_of {f : Char → Char} :
    ∀ {l : List Char}, (∀ c ∈ l, f c = c) → l.map f = l := by
  intro l
  induction l with
  | nil => intro _; rfl
  | cons x r ih =>
    intro h
    simp only [List.map_cons]
    rw [h x (List.mem_cons_self x r), ih fun c hc => h c (List.mem_cons_of_mem x hc)]

theorem pyLower_all_space (t : String) (h : ∀ c ∈ t.toList, isPySpace c = true) :
    pyLower t = t := by
  unfold pyLower
  rw [map_eq_self_of fun c hc => space_lower_fixed c (h c hc)]
  rfl

/-- C7: the classifier returns one of the four types; it depends only on
the first page's text; keyword groups decide in strict priority
invoice > contract > statement with any substring hit winning; no hits —
in particular whitespace-only or missing first-page text, an empty
document, or a reader exception — give `"generic"`. -/
theorem document_type_classifier_spec :
    (∀ inp, _detect_document_type inp = "invoice" ∨
      _detect_document_type inp = "contract" ∨
      _detect_document_type inp = "statement" ∨
      _detect_document_type inp = "generic") ∧
    (∀ p r r', _detect_document_type (.ok (p :: r)) = _detect_document_type (.ok (p :: r'))) ∧
    (∀ (p : Option String) (r : List (Option String)),
      (invoiceTypeKeywords.any (fun w => strHasSub (pyLower (p.getD "")) w) = true →
        _detect_document_type (.ok (p :: r)) = "invoice") ∧
      (invoiceTypeKeywords.any (fun w => strHasSub (pyLower (p.getD "")) w) = false →
        contractTypeKeywords.any (fun w => strHasSub (pyLower (p.getD "")) w) = true →
        _detect_document_type (.ok (p :: r)) = "contract") ∧
      (invoiceTypeKeywords.any (fun w => strHasSub (pyLower (p.getD "")) w) = false →
        contractTypeKeywords.any (fun w => strHasSub (pyLower (p.getD "")) w) = false →
        statementTypeKeywords.any (fun w => strHasSub (pyLower (p.getD "")) w) = true →
        _detect_document_type (.ok (p :: r)) = "statement") ∧
      (invoiceTypeKeywords.any (fun w => strHasSub (pyLower (p.getD "")) w) = false →
        contractTypeKeywords.any (fun w => strHasSub (pyLower (p.getD "")) w) = false →
        statementTypeKeywords.any (fun w => strHasSub (pyLower (p.getD "")) w) = false →
        _detect_document_type (.ok (p :: r)) = "generic")) ∧
    (∀ (p : Option String) (r : List (Option String)), pyStrip (p.getD "") = "" →
      _detect_document_type (.ok (p :: r)) = "generic") ∧
    (_detect_document_type (.ok []) = "generic") ∧
    (∀ msg, _detect_document_type (.error msg) = "generic") := by
  have hstep : ∀ (p : Option String) (r : List (Option String)),
      _detect_document_type (.ok (p :: r)) =
        (if invoiceTypeKeywords.any (fun w => strHasSub (pyLower (p.getD "")) w) then "invoice"
        else if contractTypeKeywords.any (fun w => strHasSub (pyLower (p.getD "")) w) then "contract"
        else if statementTypeKeywords.any (fun w => strHasSub (pyLower (p.getD "")) w) then "statement"
        else "generic") := fun p r => rfl
  refine ⟨?_, ?_, ?_, ?_, rfl, fun msg => rfl⟩
  · intro inp
    match inp with
    | .error msg => right; right; right; rfl
    | .ok [] => right; right; right; rfl
    | .ok (p :: r) =>
      rw [hstep]
      split
      · left; rfl
      · split
        · right; left; rfl
        · split
          · right; right; left; rfl
          · right; right; right; rfl
  · intro p r r'
    rfl
  · intro p r
    refine ⟨?_, ?_, ?_, ?_⟩
    · intro h1
      rw [hstep, if_pos h1]
    · intro h1 h2
      rw [hstep, if_neg (by simp [h1]), if_pos h2]
    · intro h1 h2 h3
      rw [hstep, if_neg (by simp [h1]), if_neg (by simp [h2]), if_pos h3]
    · intro h1 h2 h3
      rw [hstep, if_neg (by simp [h1]), if_neg (by simp [h2]), if_neg (by simp [h3])]
  · intro p r hstrip
    have hsp : ∀ c ∈ (p.getD "").toList, isPySpace c = true :=
      strip_empty_all_space (p.getD "").toList (congrArg String.toList hstrip)
    have hlow : pyLower (p.getD "") = p.getD "" := pyLower_all_space _ hsp
    have hno : ∀ kws : List String,
        kws.all (fun kw => kw.toList.any fun c => !isPySpace c) = true →
        kws.any (fun w => strHasSub (pyLower (p.getD "")) w) = false := by
      intro kws hk
      rw [hlow]
      exact no_keyword_hit_of_all_space kws _ hk hsp
    rw [hstep, if_neg (by simp [hno invoiceTypeKeywords (by decide)]),
      if_neg (by simp [hno contractTypeKeywords (by decide)]),
      if_neg (by simp [hno statementTypeKeywords (by decide)])]

/-- Witness for C7: concrete classifications through the theorem. -/
theorem document_type_classifier_spec_witness :
    _detect_document_type (.ok [some "Invoice 123"]) = "invoice" ∧
    _detect_document_type (.ok [some "This Agreement says hello"]) = "contract" ∧
    _detect_document_type (.ok [some "Balance Sheet 2024"]) = "statement" ∧
    _detect_document_type (.ok [some "nothing of note"]) = "generic" ∧
    _detect_document_type (.ok [some "   "]) = "generic" := by
  have h1 := (document_type_classifier_spec.2.2.1 (some "Invoice 123") []).1 (by decide)
  have h2 := (document_type_classifier_spec.2.2.1 (some "This Agreement says hello") []).2.1
    (by decide) (by decide)
  have h3 := (document_type_classifier_spec.2.2.1 (some "Balance Sheet 2024") []).2.2.1
    (by decide) (by decide) (by decide)
  have h4 := (document_type_classifier_spec.2.2.1 (some "nothing of note") []).2.2.2
    (by decide) (by decide) (by decide)
  have h5 := document_type_classifier_spec.2.2.2.1 (some "   ") [] (by decide)
  exact ⟨h1, h2, h3, h4, h5⟩

/-!
## Claims C6 and C10: the line-item column mapper
-/

theorem scanFirstIdx_spec (p : String → Bool) (l : List String) (i : Nat)
    (h : scanFirstIdx p l = some i) :
    ∃ x, l.get? i = some x ∧ p x = true ∧
      ∀ j y, j < i → l.get? j = some y → p y = false := by
  induction l generalizing i with
  | nil => exact absurd h (by simp [scanFirstIdx])
  | cons x xs ih =>
    unfold scanFirstIdx at h
    by_cases hx : p x = true
    · rw [if_pos hx] at h
      have hi : i = 0 := (Option.some_inj.mp h).symm
      subst hi
      exact ⟨x, rfl, hx, fun j y hj _ => absurd hj (Nat.not_lt_zero j)⟩
    · have hxf : p x = false := by
        cases hpx : p x
        · rfl
        · exact absurd hpx hx
      rw [if_neg hx] at h
      cases hs : scanFirstIdx p xs with
      | none => rw [hs] at h; exact absurd h (by simp)
      | some i0 =>
        rw [hs] at h
        have hi : i = i0 + 1 := by simpa using h.symm
        subst hi
        obtain ⟨x0, hg, hp, hbef⟩ := ih i0 hs
        refine ⟨x0, by simpa using hg, hp, ?_⟩
        intro j y hj hgy
        cases j with
        | zero =>
          have hxy : x = y := by simpa using hgy
          rw [← hxy]
          exact hxf
        | succ j0 =>
          exact hbef j0 y (Nat.lt_of_succ_lt_succ hj) (by simpa using hgy)

theorem scanFirstIdx_eq_some (p : String → Bool) (l : List String) (j : Nat) (x : String)
    (hg : l.get? j = some x) (hp : p x = true)
    (hbefore : ∀ k y, k < j → l.get? k = some y → p y = false) :
    scanFirstIdx p l = some j := by
  induction l generalizing j with
  | nil => simp at hg
  | cons c cs ih =>
    cases j with
    | zero =>
      have hcx : c = x := by simpa using hg
      unfold scanFirstIdx
      rw [if_pos (hcx ▸ hp)]
    | succ j0 =>
      have hc : p c = false := hbefore 0 c (Nat.succ_pos j0) (by simp)
      unfold scanFirstIdx
      rw [if_neg (by simp [hc])]
      rw [ih j0 (by simpa using hg)
        (fun k y hk hky => hbefore (k + 1) y (Nat.succ_lt_succ hk) (by simpa using hky))]
      rfl

theorem lookup_none_of_not_mem_keys {β : Type} {l : List (String × β)} {k : String}
    (h : k ∉ l.map Prod.fst) : l.lookup k = none := by
  induction l with
  | nil => rfl
  | cons e rest ih =>
    simp only [List.map_cons, List.mem_cons] at h
    push_neg at h
    simp only [List.lookup, beq_eq_false_iff_ne.mpr h.1]
    exact ih h.2

theorem keys_filterMap_sublist {β γ : Type} (tbl : List (String × β))
    (F : String × β → Option γ) :
    ((tbl.filterMap fun rk => (F rk).map fun v => (rk.1, v)).map Prod.fst).Sublist
      (tbl.map Prod.fst) := by
  induction tbl with
  | nil => exact List.Sublist.refl []
  | cons e rest ih =>
    simp only [List.filterMap_cons]
    cases F e with
    | none => exact List.Sublist.cons e.1 ih
    | some v => exact List.Sublist.cons₂ e.1 ih

theorem lookup_cons_self {β : Type} (k : String) (b : β) (l : List (String × β)) :
    ((k, b) :: l).lookup k = some b := by
  simp [List.lookup]

theorem lookup_cons_ne {β : Type} {k k1 : String} (b : β) (l : List (String × β))
    (h : k ≠ k1) : ((k1, b) :: l).lookup k = l.lookup k := by
  simp [List.lookup, beq_eq_false_iff_ne.mpr h]

theorem lookup_filterMap_keyed {β γ : Type} (tbl : List (String × β))
    (F : String × β → Option γ) (k : String) (hnd : (tbl.map Prod.fst).Nodup) :
    (tbl.filterMap fun rk => (F rk).map fun v => (rk.1, v)).lookup k
      = (tbl.lookup k).bind fun b => F (k, b) := by
  induction tbl with
  | nil => rfl
  | cons e rest ih =>
    obtain ⟨k1, b1⟩ := e
    simp only [List.map_cons, List.nodup_cons] at hnd
    obtain ⟨hk1, hndr⟩ := hnd
    by_cases hkk : k = k1
    · subst hkk
      cases hf : F (k, b1) with
      | some v =>
        simp only [List.filterMap_cons, hf, Option.map_some']
        rw [lookup_cons_self, lookup_cons_self]
        exact hf.symm
      | none =>
        simp only [List.filterMap_cons, hf, Option.map_none']
        have hnot : k ∉ (rest.filterMap fun rk => (F rk).map fun v => (rk.1, v)).map Prod.fst :=
          fun hmem => hk1 ((keys_filterMap_sublist rest F).mem hmem)
        rw [lookup_none_of_not_mem_keys hnot, lookup_cons_self]
        exact hf.symm
    · cases hf : F (k1, b1) with
      | some v =>
        simp only [List.filterMap_cons, hf, Option.map_some']
        rw [lookup_cons_ne v _ hkk, lookup_cons_ne b1 rest hkk]
        exact ih hndr
      | none =>
        simp only [List.filterMap_cons, hf, Option.map_none']
        rw [lookup_cons_ne b1 rest hkk]
        exact ih hndr

theorem colMapRaw_lookup (headers : List String) (role : String) :
    (colMapRaw headers).lookup role = (roleKeywordTable.lookup role).bind fun kws =>
      scanFirstIdx (fun h => kws.any fun kw => strHasSub h kw) headers :=
  lookup_filterMap_keyed roleKeywordTable
    (fun rk => scanFirstIdx (fun h => rk.2.any fun kw => strHasSub h kw) headers)
    role (by decide)

theorem itemFields_lookup (colMap : List (String × Nat)) (row : List (Option String))
    (role : String) (hnd : (colMap.map Prod.fst).Nodup) :
    (itemFieldsOfRow colMap row).lookup role
      = (colMap.lookup role).bind fun i => cellValueForRole role row i :=
  lookup_filterMap_keyed colMap (fun rc => cellValueForRole rc.1 row rc.2) role hnd

theorem colMapRaw_keys_nodup (headers : List String) :
    ((colMapRaw headers).map Prod.fst).Nodup :=
  (keys_filterMap_sublist roleKeywordTable
    (fun rk => scanFirstIdx (fun h => rk.2.any fun kw => strHasSub h kw) headers)).nodup
    (by decide)

/-- C6: a non-empty role map always contains `description` or `amount`;
an assigned role points at the first (leftmost) header containing one of
the role's keywords and no earlier header matches; a table whose lowered
headers map to the empty role map contributes no line items. -/
theorem line_item_mapper_spec :
    (∀ headers, _map_line_item_columns headers ≠ [] →
      ((_map_line_item_columns headers).lookup "description").isSome ∨
      ((_map_line_item_columns headers).lookup "amount").isSome) ∧
    (∀ headers role kws i, roleKeywordTable.lookup role = some kws →
      (_map_line_item_columns headers).lookup role = some i →
      ∃ x, headers.get? i = some x ∧ (kws.any fun kw => strHasSub x kw) = true ∧
        ∀ j y, j < i → headers.get? j = some y →
          (kws.any fun kw => strHasSub y kw) = false) ∧
    (∀ raw, _map_line_item_columns
        ((raw.headD []).map fun h => pyLower (pyStrip (h.getD ""))) = [] →
      lineItemsOfTable raw = []) := by
  refine ⟨?_, ?_, ?_⟩
  · intro headers hne
    unfold _map_line_item_columns at hne ⊢
    by_cases hacc : (((colMapRaw headers).lookup "description").isSome ||
        ((colMapRaw headers).lookup "amount").isSome) = true
    · rw [if_pos hacc]
      simpa using hacc
    · rw [if_neg hacc] at hne
      exact absurd rfl hne
  · intro headers role kws i hrole hlook
    unfold _map_line_item_columns at hlook
    by_cases hacc : (((colMapRaw headers).lookup "description").isSome ||
        ((colMapRaw headers).lookup "amount").isSome) = true
    · rw [if_pos hacc] at hlook
      rw [colMapRaw_lookup headers role, hrole] at hlook
      exact scanFirstIdx_spec _ headers i hlook
    · rw [if_neg hacc] at hlook
      exact absurd hlook (by simp)
  · intro raw hmap
    unfold lineItemsOfTable
    split
    · rfl
    · simp only [hmap]
      rfl

/-- Witness for C6 at the table headers
`["description", "qty", "unit price", "amount"]`. -/
theorem line_item_mapper_spec_witness :
    (((_map_line_item_columns ["description", "qty", "unit price", "amount"]).lookup
        "description").isSome ∨
      ((_map_line_item_columns ["description", "qty", "unit price", "amount"]).lookup
        "amount").isSome) ∧
    (∃ x, ["description", "qty", "unit price", "amount"].get? 1 = some x ∧
      ((["qty", "quantity", "antall", "mengde", "antal", "pcs", "units"].any
        fun kw => strHasSub x kw) = true) ∧
      ∀ j y, j < 1 → ["description", "qty", "unit price", "amount"].get? j = some y →
        ((["qty", "quantity", "antall", "mengde", "antal", "pcs", "units"].any
          fun kw => strHasSub y kw) = false)) ∧
    lineItemsOfTable [[some "x"]] = [] := by
  refine ⟨?_, ?_, ?_⟩
  · exact line_item_mapper_spec.1 ["description", "qty", "unit price", "amount"] (by decide)
  · exact line_item_mapper_spec.2.1 ["description", "qty", "unit price", "amount"]
      "quantity" ["qty", "quantity", "antall", "mengde", "antal", "pcs", "units"] 1
      (by decide) (by decide)
  · exact line_item_mapper_spec.2.2 [[some "x"]] (by decide)

/-- C10 counterexample: with headers `["units", "unit price", "amount"]`
the header at index 1 is `"unit price"`, containing both `"unit"` and
`"unit price"`, yet the `unit` role is assigned column 0 (the earlier
`"units"` header) while `unit_price` is assigned column 1 — the same
column is not assigned to both roles. -/
theorem unit_roles_counterexample :
    ["units", "unit price", "amount"].get? 1 = some "unit price" ∧
    strHasSub "unit price" "unit" = true ∧
    strHasSub "unit price" "unit price" = true ∧
    (_map_line_item_columns ["units", "unit price", "amount"]).lookup "unit" = some 0 ∧
    (_map_line_item_columns ["units", "unit price", "amount"]).lookup "unit_price" = some 1 := by
  refine ⟨rfl, rfl, rfl, ?_, ?_⟩ <;> rfl

/-- C10 (amended): roles are assigned independently, so one header can
serve several roles.  When the header at index `j` contains both `"unit"`
and `"unit price"` and no earlier header matches any keyword of the `unit`
or `unit_price` roles, both roles map to column `j` (provided the table is
accepted at all), and every line item built from a row that reaches column
`j` carries `unit` equal to the raw cell text alongside the normalized
`unit_price`. -/
theorem unit_roles_amended (headers : List String) (j : Nat) (h : String)
    (hj : headers.get? j = some h)
    (hu : strHasSub h "unit" = true)
    (hup : strHasSub h "unit price" = true)
    (hbefore : ∀ k y, k < j → headers.get? k = some y →
      ((["unit", "uom", "enhet"].any fun kw => strHasSub y kw) = false ∧
        (["unit price", "price", "rate", "pris", "enhetspris", "à pris",
          "unit cost"].any fun kw => strHasSub y kw) = false))
    (hne : _map_line_item_columns headers ≠ []) :
    (_map_line_item_columns headers).lookup "unit" = some j ∧
    (_map_line_item_columns headers).lookup "unit_price" = some j ∧
    (∀ (row : List (Option String)) (hr : j < row.length),
      (itemFieldsOfRow (_map_line_item_columns headers) row).lookup "unit"
        = some (some (cellStr (row.get ⟨j, hr⟩))) ∧
      (itemFieldsOfRow (_map_line_item_columns headers) row).lookup "unit_price"
        = some (_normalize_amount (cellStr (row.get ⟨j, hr⟩)))) := by
  have hscanU : scanFirstIdx
      (fun x => ["unit", "uom", "enhet"].any fun kw => strHasSub x kw) headers = some j :=
    scanFirstIdx_eq_some _ headers j h hj
      (List.any_eq_true.mpr ⟨"unit", by decide, hu⟩)
      (fun k y hk hky => (hbefore k y hk hky).1)
  have hscanP : scanFirstIdx
      (fun x => ["unit price", "price", "rate", "pris", "enhetspris", "à pris",
        "unit cost"].any fun kw => strHasSub x kw) headers = some j :=
    scanFirstIdx_eq_some _ headers j h hj
      (List.any_eq_true.mpr ⟨"unit price", by decide, hup⟩)
      (fun k y hk hky => (hbefore k y hk hky).2)
  have hmap : _map_line_item_columns headers = colMapRaw headers := by
    unfold _map_line_item_columns at hne ⊢
    by_cases hacc : (((colMapRaw headers).lookup "description").isSome ||
        ((colMapRaw headers).lookup "amount").isSome) = true
    · rw [if_pos hacc]
    · rw [if_neg hacc] at hne
      exact absurd rfl hne
  have hU : (_map_line_item_columns headers).lookup "unit" = some j := by
    rw [hmap, colMapRaw_lookup]
    exact hscanU
  have hP : (_map_line_item_columns headers).lookup "unit_price" = some j := by
    rw [hmap, colMapRaw_lookup]
    exact hscanP
  refine ⟨hU, hP, ?_⟩
  intro row hr
  have hnd : ((_map_line_item_columns headers).map Prod.fst).Nodup := by
    rw [hmap]
    exact colMapRaw_keys_nodup headers
  constructor
  · rw [itemFields_lookup _ row "unit" hnd, hU]
    show cellValueForRole "unit" row j = some (some (cellStr (row.get ⟨j, hr⟩)))
    unfold cellValueForRole
    rw [dif_pos hr]
    rfl
  · rw [itemFields_lookup _ row "unit_price" hnd, hP]
    show cellValueForRole "unit_price" row j = some (_normalize_amount (cellStr (row.get ⟨j, hr⟩)))
    unfold cellValueForRole
    rw [dif_pos hr]
    rfl

/-- Witness for C10 at the spec's example table. -/
theorem unit_roles_amended_witness :
    (_map_line_item_columns ["description", "qty", "unit price", "amount"]).lookup "unit"
        = some 2 ∧
    (_map_line_item_columns ["description", "qty", "unit price", "amount"]).lookup "unit_price"
        = some 2 ∧
    (itemFieldsOfRow (_map_line_item_columns ["description", "qty", "unit price", "amount"])
        [some "Consulting", some "10", some "1000.00", some "10000.00"]).lookup "unit"
        = some (some "1000.00") ∧
    (itemFieldsOfRow (_map_line_item_columns ["description", "qty", "unit price", "amount"])
        [some "Consulting", some "10", some "1000.00", some "10000.00"]).lookup "unit_price"
        = some (some "1000.00") := by
  have hb : ∀ k y, k < 2 →
      ["description", "qty", "unit price", "amount"].get? k = some y →
      ((["unit", "uom", "enhet"].any fun kw => strHasSub y kw) = false ∧
        (["unit price", "price", "rate", "pris", "enhetspris", "à pris",
          "unit cost"].any fun kw => strHasSub y kw) = false) := by
    intro k y hk hky
    match k, hk with
    | 0, _ =>
      have hy : y = "description" := (Option.some_inj.mp hky).symm
      subst hy
      exact ⟨by decide, by decide⟩
    | 1, _ =>
      have hy : y = "qty" := (Option.some_inj.mp hky).symm
      subst hy
      exact ⟨by decide, by decide⟩
  have h := unit_roles_amended ["description", "qty", "unit price", "amount"] 2 "unit price"
    rfl rfl rfl hb (by decide)
  obtain ⟨h1, h2, h3⟩ := h
  have h4 := h3 [some "Consulting", some "10", some "1000.00", some "10000.00"] (by decide)
  exact ⟨h1, h2, by simpa using h4.1, by simpa using h4.2⟩

end Era
